import Mathlib

/-!
# Recipe browser (`script.js`): filter resolution, favourites and pagination

A shallow embedding of the logic of `script.js`.

* JSON objects of the recipe API are records of optional string fields
  (`Meal`); a field that is `none` is absent (`undefined`).  Fields holding
  `null` or numbers are not modelled: the API sends ids, titles, thumbnails,
  areas and categories as strings.
* The network is an oracle (`Net`) giving, for each request, what `fetch`
  followed by `.json()` produced; every function that talks to the network
  also returns the list of requests it issued, in issue order.
* `localStorage["favorites"]` is represented by what `getItem` and
  `JSON.parse` make of it (`Blob`).
* DOM construction is represented by its data: the text put in `#results`
  or the items whose cards `renderMealCards` appended to it, and the values
  `renderPagination` writes.  A card is represented by its item; a throw
  while a card is built is modelled, the star drawn on a card is not.
-/

namespace Food

/-! ## Data model -/

/-- A meal object as the API returns it (listing entry, search hit or full
detail) or as the favourites store keeps it.  `rest` holds every other field
of a full detail (instructions, ingredients, measures and so on). -/
structure Meal where
  idMeal : Option String
  strMeal : Option String
  strMealThumb : Option String
  strArea : Option String
  strCategory : Option String
  rest : List (String × String)
deriving DecidableEq, Repr

/-- The global `state` object (`script.js` lines 70-77). -/
structure State where
  area : String
  category : String
  favoritesOnly : Bool
  search : String
  page : Nat
  pageSize : Nat
deriving DecidableEq, Repr

/-- Truthiness of a string-valued field: absent and empty are falsy. -/
def truthy (v : Option String) : Bool :=
  match v with
  | none => false
  | some s => s != ""

/-- The object literal with the three summary fields that the script builds
in `toggleFavorite` and in every projection of `applyFilters`. -/
def summary (m : Meal) : Meal :=
  { idMeal := m.idMeal, strMeal := m.strMeal, strMealThumb := m.strMealThumb,
    strArea := none, strCategory := none, rest := [] }

/-! ## Pagination (`script.js` lines 427-453) -/

/-- The relative index of `Array.prototype.slice`: a negative index counts
from the end, and the result is kept within `0 .. len`. -/
def relIndex (len : Nat) (i : Int) : Nat :=
  if i < 0 then (len + i).toNat else min i.toNat len

/-- JavaScript `xs.slice(start, stop)`. -/
def slice {α : Type} (xs : List α) (start stop : Int) : List α :=
  let k := relIndex xs.length start
  let final := relIndex xs.length stop
  (xs.drop k).take (final - k)

/-- `Math.ceil(total / pageSize)` for a positive `pageSize`.  The script
divides two array-length-sized integers as doubles and rounds up; on such
operands that is the exact ceiling of the quotient, computed here with
integer arithmetic. -/
def ceilDiv (total pageSize : Nat) : Nat :=
  (total + pageSize - 1) / pageSize

/-- `Math.max(1, Math.ceil(total / pageSize))`, as computed both in
`paginateAndRender` and in `renderPagination`. -/
def totalPagesOf (total pageSize : Nat) : Nat :=
  max 1 (ceilDiv total pageSize)

/-- What ends up in the `#results` element: a text, or the cards that
`renderMealCards` appended, each represented by its item.  The paginator
never looks inside an item, so the item type is a parameter. -/
inductive Results (α : Type) where
  | text (s : String)
  | cards (ms : List α)
deriving DecidableEq, Repr

/-- What `renderPagination` writes: the text `Page p of t` and the disabled
flags of the two buttons. -/
structure Pager where
  pageShown : Nat
  totalPages : Nat
  prevDisabled : Bool
  nextDisabled : Bool
deriving DecidableEq, Repr

/-- Embedding of `renderPagination(totalItems)`. -/
def renderPagination (st : State) (totalItems : Nat) : Pager :=
  let totalPages := totalPagesOf totalItems st.pageSize
  { pageShown := st.page, totalPages := totalPages,
    prevDisabled := decide (st.page ≤ 1),
    nextDisabled := decide (st.page ≥ totalPages) }

/-- Embedding of `renderMealCards(meals)` (lines 474-538): `#results` is
cleared and one card per item is appended, in order.  `throwsOn` tells for
which items building the card throws; the cards appended before the first
such item stay in `#results`.  The result is the cards appended and whether
the function threw. -/
def renderMealCards {α : Type} (throwsOn : α → Bool) : List α → List α × Bool
  | [] => ([], false)
  | meal :: rest =>
    if throwsOn meal then ([], true)
    else (meal :: (renderMealCards throwsOn rest).1, (renderMealCards throwsOn rest).2)

/-- The effect of `paginateAndRender`. -/
structure Rendered (α : Type) where
  /-- The global `state` afterwards. -/
  state : State
  /-- The constant `totalPages` of line 431. -/
  totalPages : Nat
  /-- The constant `slice` of line 434. -/
  pageItems : List α
  /-- The content of `#results` afterwards. -/
  results : Results α
  /-- What `renderPagination` wrote; `none` when it was not reached because
  `renderMealCards` threw. -/
  pager : Option Pager
  /-- Whether the call threw (out of `renderMealCards`). -/
  threw : Bool
deriving DecidableEq, Repr

/-- Embedding of `paginateAndRender(meals)`; `throwsOn` is passed on to
`renderMealCards`. -/
def paginateAndRender {α : Type} (throwsOn : α → Bool) (st : State) (meals : List α) :
    Rendered α :=
  let total := meals.length
  let pageSize := st.pageSize
  let totalPages := totalPagesOf total pageSize
  let st1 : State := if st.page > totalPages then { st with page := totalPages } else st
  let start : Int := ((st1.page : Int) - 1) * (pageSize : Int)
  let cut := slice meals start (start + (pageSize : Int))
  let threw : Bool := if cut.length = 0 then false else (renderMealCards throwsOn cut).2
  { state := st1, totalPages := totalPages, pageItems := cut,
    results :=
      if cut.length = 0 then Results.text "No recipes found."
      else Results.cards (renderMealCards throwsOn cut).1,
    pager := if threw then none else some (renderPagination st1 total),
    threw := threw }

/-! ## Favourites store (`script.js` lines 79-116) -/

/-- The only exception the modelled code can raise: reading a property of
`null`, or `Object.values(null)`. -/
inductive JsError where
  | typeError
deriving DecidableEq, Repr

/-- A plain JavaScript object keyed by recipe id: its own properties in
creation order.  `lookup` reads the first entry of a key and `deleteProp`
removes every entry of it, so a list with a repeated key behaves like the
object holding the first of them.  What the object inherits from
`Object.prototype` is given by `inheritedKeys`. -/
abbrev FavMap := List (String × Meal)

/-- The property names every plain object inherits from `Object.prototype`
in a browser.  Each of them reads as a function or an object, hence as a
truthy value, on an object that has no own property of that name. -/
def inheritedKeys : List String :=
  ["constructor", "hasOwnProperty", "isPrototypeOf", "propertyIsEnumerable",
   "toLocaleString", "toString", "valueOf", "__proto__", "__defineGetter__",
   "__defineSetter__", "__lookupGetter__", "__lookupSetter__"]

/-- Truthiness of the read `map[k]` on a plain object: an own property (the
stored entries are objects, hence truthy), or else a property inherited from
`Object.prototype`. -/
def readsTruthy (m : FavMap) (k : String) : Bool :=
  (m.lookup k).isSome || inheritedKeys.contains k

/-- The stored favourites, classified by what `localStorage.getItem` and
`JSON.parse` make of them.  Texts that parse to a number, a boolean, a string
or an array, and objects with a property that is not itself an object, are
not modelled. -/
inductive Blob where
  /-- Nothing stored: `getItem` returns `null`. -/
  | missing
  /-- Reading the storage throws. -/
  | unreadable
  /-- The empty string is stored. -/
  | empty
  /-- The stored text is not JSON: `JSON.parse` throws. -/
  | malformed
  /-- The stored text is the JSON literal null. -/
  | jsonNull
  /-- The stored text is a JSON object with these properties. -/
  | object (m : FavMap)
deriving DecidableEq, Repr

/-- JavaScript `String(v)` for a string-valued field that may be absent: the
property key used by `map[v]` and the text `encodeURIComponent(v)` encodes. -/
def jsString (v : Option String) : String :=
  match v with
  | none => "undefined"
  | some s => s

/-- Embedding of `getFavoritesMap()`.  The result `none` is the JavaScript
value `null`, which `JSON.parse` returns without throwing. -/
def getFavoritesMap (blob : Blob) : Option FavMap :=
  match blob with
  | .missing => some []
  | .unreadable => some []
  | .empty => some []
  | .malformed => some []
  | .jsonNull => none
  | .object m => some m

/-- Embedding of `saveFavoritesMap(map)`: `writeOk` tells whether
`localStorage.setItem` succeeds; a failure is logged and swallowed. -/
def saveFavoritesMap (writeOk : Bool) (blob : Blob) (map : FavMap) : Blob :=
  if writeOk then .object map else blob

/-- JavaScript `delete map[k]`. -/
def deleteProp (m : FavMap) (k : String) : FavMap :=
  m.filter (fun e => e.1 != k)

/-- JavaScript `map[k] = v` for a key that is not an inherited name (the
only use, in `toggleFavorite`, is behind a falsy `map[k]`): an existing
property keeps its place, a new one is created last. -/
def setProp (m : FavMap) (k : String) (v : Meal) : FavMap :=
  if (m.lookup k).isSome then m.map (fun e => if e.1 == k then (k, v) else e)
  else m ++ [(k, v)]

/-- Embedding of `isFavorited(id)`: `Boolean(map[id])`, which throws when the
map is `null`. -/
def isFavorited (blob : Blob) (id : Option String) : Except JsError Bool :=
  match getFavoritesMap blob with
  | none => .error .typeError
  | some m => .ok (readsTruthy m (jsString id))

/-- Embedding of `toggleFavorite(meal)`; the result is the stored blob
afterwards.  The test `if (map[meal.idMeal])` also succeeds on an inherited
name, for which `delete` then removes nothing unless the object has an own
property of that name. -/
def toggleFavorite (writeOk : Bool) (blob : Blob) (meal : Meal) : Except JsError Blob :=
  match getFavoritesMap blob with
  | none => .error .typeError
  | some m =>
    let k := jsString meal.idMeal
    let m1 := if readsTruthy m k then deleteProp m k else setProp m k (summary meal)
    .ok (saveFavoritesMap writeOk blob m1)

/-- Where building the card of an item throws in `renderMealCards`: reading
`meal.idMeal` of a `null` item (line 482), and `isFavorited(meal.idMeal)`
when the stored favourites read as `null` (line 496). -/
def cardThrows (blob : Blob) (item : Option Meal) : Bool :=
  match item with
  | none => true
  | some meal =>
    match isFavorited blob meal.idMeal with
    | .error _ => true
    | .ok _ => false

/-- The array index a property key denotes, if any: a canonical decimal
numeral below `2^32 - 1`. -/
def arrayIndex? (k : String) : Option Nat :=
  match k.toNat? with
  | none => none
  | some n => if toString n == k && n < 4294967295 then some n else none

/-- JavaScript `Object.values(map)`: integer-like keys first, in ascending
numeric order, then the other keys in creation order. -/
def objectValues (m : FavMap) : List Meal :=
  let indexed := m.filterMap (fun e => (arrayIndex? e.1).map (fun n => (n, e.2)))
  let named := m.filter (fun e => (arrayIndex? e.1).isNone)
  (indexed.insertionSort (fun a b => a.1 ≤ b.1)).map Prod.snd ++ named.map Prod.snd

/-! ## Network -/

/-- The requests the script sends to the recipe API. -/
inductive Request where
  | listCategories
  | filterByCategory (c : String)
  | filterByArea (a : String)
  | search (s : String)
  | lookup (id : String)
deriving DecidableEq, Repr

/-- What `fetch(...)` followed by `.json()` gives for a request. -/
inductive Fetched where
  /-- The fetch rejected, or the body was not a JSON object. -/
  | failed
  /-- A JSON object whose `meals` is absent or `null`. -/
  | noMeals
  /-- A JSON object whose `meals` is this array; an entry `none` is `null`. -/
  | meals (ms : List (Option Meal))
deriving DecidableEq, Repr

/-- The network, as an oracle. -/
abbrev Net := Request → Fetched

/-- The expression `data.meals || []` on a received object; `none` when
nothing was received. -/
def mealsOrEmpty (r : Fetched) : Option (List (Option Meal)) :=
  match r with
  | .failed => none
  | .noMeals => some []
  | .meals ms => some ms

/-! ## Aggregation (`getAllMeals`, `script.js` lines 207-261) -/

/-- The body of the `forEach` in `getAllMeals`, on the pair
(`combined`, `seen`). -/
def dedupeStep (acc : List Meal × List String) (e : Option Meal) :
    List Meal × List String :=
  match e with
  | none => acc
  | some meal =>
    if !truthy meal.idMeal then acc
    else if acc.2.contains (jsString meal.idMeal) then acc
    else (acc.1 ++ [meal], acc.2 ++ [jsString meal.idMeal])

/-- The flatten-and-dedupe loop of `getAllMeals` (lines 245-253). -/
def dedupe (flat : List (Option Meal)) : List Meal :=
  (flat.foldl dedupeStep ([], [])).1

/-- One per-category promise of `getAllMeals` (lines 229-241): the listing,
or the empty array when `meals` is missing or the request failed. -/
def fetchCategory (net : Net) (cat : String) : List (Option Meal) :=
  (mealsOrEmpty (net (.filterByCategory cat))).getD []

/-- The registry `getAllMeals` works with (lines 213-226): the cached list,
or when that is empty the freshly fetched one; `none` when fetching it
failed (a `null` entry makes `m.strCategory` throw). -/
def loadCategories (net : Net) (categoriesList : List String) :
    Option (List String) :=
  if categoriesList.length = 0 then
    match net .listCategories with
    | .failed => none
    | .noMeals => some []
    | .meals ms =>
      if ms.all Option.isSome then
        some (ms.filterMap (fun e => e.map (fun m => jsString m.strCategory)))
      else none
  else some categoriesList

/-- The effect of `getAllMeals`. -/
structure AllMeals where
  /-- The global `categoriesList` afterwards. -/
  categories : List String
  requests : List Request
  /-- The returned array. -/
  meals : List Meal
  /-- Whether `Failed to load recipes.` was written to `#results`. -/
  failed : Bool
deriving DecidableEq, Repr

/-- Embedding of `getAllMeals()`. -/
def getAllMeals (net : Net) (categoriesList : List String) : AllMeals :=
  let refetch : List Request := if categoriesList.length = 0 then [.listCategories] else []
  match loadCategories net categoriesList with
  | none => { categories := categoriesList, requests := refetch, meals := [], failed := true }
  | some cats =>
    let perCategory := cats.map (fetchCategory net)
    { categories := cats,
      requests := refetch ++ cats.map Request.filterByCategory,
      meals := dedupe perCategory.flatten,
      failed := false }

/-! ## Detail lookups (`script.js` lines 263-285) -/

/-- Embedding of `fetchMealDetail(id)`; `none` is `null`. -/
def fetchMealDetail (net : Net) (id : String) : Option Meal :=
  match net (.lookup id) with
  | .meals (some d :: _) => some d
  | _ => none

/-- Embedding of `fetchDetailsForMeals(meals)`: the lookups issued and the
details found.  A `null` entry makes `m.idMeal` throw before any request. -/
def fetchDetailsForMeals (net : Net) (meals : List (Option Meal)) :
    Except JsError (List Request × List Meal) :=
  if meals.all Option.isSome then
    let ids := ((meals.filterMap id).map (fun m => m.idMeal)).filter truthy
    .ok (ids.map (fun i => Request.lookup (jsString i)),
         ids.filterMap (fun i => fetchMealDetail net (jsString i)))
  else .error .typeError

/-! ## Filter resolution (`applyFilters`, `script.js` lines 287-425) -/

/-- How a run of `applyFilters` ends. -/
inductive Resolution where
  /-- A caught failure: only this text is written to `#results`. -/
  | failed (msg : String)
  /-- The favourites are empty: the hint text and `renderPagination(0)`. -/
  | noFavorites
  /-- The list handed to `paginateAndRender`. -/
  | resolved (meals : List (Option Meal))
  /-- An uncaught `TypeError`: `#results` keeps showing `Loading...`. -/
  | rejected
deriving DecidableEq, Repr

/-- The resolution part of `applyFilters`: requests issued, the global
`categoriesList` afterwards, and the way it ends. -/
structure Resolved where
  requests : List Request
  categories : List String
  resolution : Resolution
deriving DecidableEq, Repr

/-- The favourites post-filter of the search branch (lines 313-316):
`meals.filter((m) => favMap[m.idMeal])`; the callback throws on a `null`
map, so an empty array passes untouched. -/
def filterFavorites (favMap : Option FavMap) (hits : List Meal) :
    Except JsError (List Meal) :=
  match favMap with
  | some m => .ok (hits.filter (fun h => readsTruthy m (jsString h.idMeal)))
  | none => if hits.length = 0 then .ok [] else .error .typeError

/-- The search branch of `applyFilters` (lines 295-340). -/
def resolveSearch (net : Net) (blob : Blob) (st : State) : Resolution :=
  match mealsOrEmpty (net (.search st.search)) with
  | none => .failed "Search failed."
  | some found =>
    if found.all Option.isSome then
      let hits := found.filterMap id
      let byFav := if st.favoritesOnly then filterFavorites (getFavoritesMap blob) hits
                   else .ok hits
      match byFav with
      | .error _ => .failed "Search failed."
      | .ok l1 =>
        let l2 := if st.area != "" then l1.filter (fun m => m.strArea == some st.area) else l1
        let l3 := if st.category != "" && st.category != "all"
                  then l2.filter (fun m => m.strCategory == some st.category) else l2
        .resolved ((l3.map summary).map some)
    else .failed "Search failed."

/-- The favourites-only branch of `applyFilters` (lines 343-378). -/
def resolveFavorites (net : Net) (blob : Blob) (st : State) :
    List Request × Resolution :=
  match getFavoritesMap blob with
  | none => ([], .rejected)
  | some favMap =>
    let favArray := objectValues favMap
    if favArray.length = 0 then ([], .noFavorites)
    else if st.area == "" && (st.category == "" || st.category == "all") then
      ([], .resolved (favArray.map some))
    else
      match fetchDetailsForMeals net (favArray.map some) with
      | .error _ => ([], .rejected)
      | .ok (reqs, fullFavs) =>
        let kept := fullFavs.filter (fun m =>
          if st.area != "" && m.strArea != some st.area then false
          else if st.category != "" && st.category != "all"
                    && m.strCategory != some st.category then false
          else true)
        (reqs, .resolved ((kept.map summary).map some))

/-- The area/category branch of `applyFilters` (lines 381-422). -/
def resolveListing (net : Net) (categoriesList : List String) (st : State) : Resolved :=
  if st.category == "all" then
    if st.area != "" then
      { requests := [.filterByArea st.area], categories := categoriesList,
        resolution :=
          match mealsOrEmpty (net (.filterByArea st.area)) with
          | none => .failed "Failed to load recipes."
          | some meals => .resolved meals }
    else
      let all := getAllMeals net categoriesList
      { requests := all.requests, categories := all.categories,
        resolution := .resolved (all.meals.map some) }
  else
    match mealsOrEmpty (net (.filterByCategory st.category)) with
    | none =>
      { requests := [.filterByCategory st.category], categories := categoriesList,
        resolution := .failed "Failed to load recipes." }
    | some meals =>
      if st.area != "" then
        match fetchDetailsForMeals net meals with
        | .error _ =>
          { requests := [.filterByCategory st.category], categories := categoriesList,
            resolution := .failed "Failed to load recipes." }
        | .ok (reqs, fulls) =>
          { requests := .filterByCategory st.category :: reqs, categories := categoriesList,
            resolution := .resolved
              (((fulls.filter (fun m => m.strArea == some st.area)).map summary).map some) }
      else
        { requests := [.filterByCategory st.category], categories := categoriesList,
          resolution := .resolved meals }

/-- The decision policy of `applyFilters`: search first, then
favourites-only, then area and category. -/
def resolve (net : Net) (blob : Blob) (categoriesList : List String) (st : State) :
    Resolved :=
  if st.search != "" then
    { requests := [.search st.search], categories := categoriesList,
      resolution := resolveSearch net blob st }
  else if st.favoritesOnly then
    { requests := (resolveFavorites net blob st).1, categories := categoriesList,
      resolution := (resolveFavorites net blob st).2 }
  else resolveListing net categoriesList st

/-- The effect of a run of `applyFilters`. -/
structure Run where
  requests : List Request
  categories : List String
  resolution : Resolution
  /-- The global `state` afterwards. -/
  state : State
  /-- The content of `#results` afterwards. -/
  results : Results (Option Meal)
  /-- The pagination controls, `none` when they were not touched. -/
  pager : Option Pager
  /-- Whether the promise of `applyFilters` rejected (an uncaught throw). -/
  rejected : Bool
deriving DecidableEq, Repr

/-- Embedding of `applyFilters()`: the resolution, followed by what each
branch does with it (`paginateAndRender`, a message, or nothing).  The call
of `paginateAndRender` in the search branch (line 333) is inside the `try`,
so a throw out of it ends in `Search failed.`; the calls of the other
branches (lines 376 and 424) are outside, so a throw rejects the promise. -/
def applyFilters (net : Net) (blob : Blob) (categoriesList : List String) (st : State) :
    Run :=
  let r := resolve net blob categoriesList st
  match r.resolution with
  | .failed msg =>
    { requests := r.requests, categories := r.categories, resolution := r.resolution,
      state := st, results := .text msg, pager := none, rejected := false }
  | .noFavorites =>
    { requests := r.requests, categories := r.categories, resolution := r.resolution,
      state := st,
      results := .text "No favorites yet. Click the star on a recipe to save it.",
      pager := some (renderPagination st 0), rejected := false }
  | .resolved meals =>
    let p := paginateAndRender (cardThrows blob) st meals
    if p.threw && st.search != "" then
      { requests := r.requests, categories := r.categories, resolution := r.resolution,
        state := p.state, results := .text "Search failed.", pager := none,
        rejected := false }
    else
      { requests := r.requests, categories := r.categories, resolution := r.resolution,
        state := p.state, results := p.results, pager := p.pager, rejected := p.threw }
  | .rejected =>
    { requests := r.requests, categories := r.categories, resolution := r.resolution,
      state := st, results := .text "Loading...", pager := none, rejected := true }

/-! ## The aggregation in the specification's words -/

/-- The specification's deduplication: walk the entries in order, skip an
entry whose id was already seen, else keep it (and remember its id). -/
def keepUnseen (seen : List (Option String)) : List Meal → List Meal
  | [] => []
  | e :: rest =>
    if seen.contains e.idMeal then keepUnseen seen rest
    else e :: keepUnseen (e.idMeal :: seen) rest

/-- The specification's aggregation result for a flattened list of entries:
deduplicated by id, first-seen order. -/
def firstSeen (flat : List Meal) : List Meal :=
  keepUnseen [] flat

/-- The entries the loop of `getAllMeals` does not skip outright: the ones
that are objects with a non-empty `idMeal`. -/
def usable (flat : List (Option Meal)) : List Meal :=
  (flat.filterMap id).filter (fun m => truthy m.idMeal)

/-! ## Favourites: two toggles in a row, and equality of content -/

/-- Two maps have the same content when every key reads the same in both. -/
def sameContent (a b : FavMap) : Prop :=
  ∀ k : String, a.lookup k = b.lookup k

/-- Calling `toggleFavorite(meal)` twice in a row; `w1` and `w2` tell whether
the first and the second write succeed. -/
def toggleTwice (w1 w2 : Bool) (blob : Blob) (meal : Meal) : Except JsError Blob :=
  match toggleFavorite w1 blob meal with
  | .error e => .error e
  | .ok b => toggleFavorite w2 b meal

/-! ## Concrete inputs -/

/-- A recipe summary with the given id and title. -/
def mkSummary (id title : String) : Meal :=
  { idMeal := some id, strMeal := some title, strMealThumb := some "thumb.jpg",
    strArea := none, strCategory := none, rest := [] }

/-- A full detail with the given id, title, area and category. -/
def mkDetail (id title area category : String) : Meal :=
  { idMeal := some id, strMeal := some title, strMealThumb := some "thumb.jpg",
    strArea := some area, strCategory := some category,
    rest := [("strInstructions", "Cook.")] }

/-- A default filter state: the initial `state` of the script. -/
def initialState : State :=
  { area := "", category := "all", favoritesOnly := false, search := "",
    page := 1, pageSize := 8 }

/-- A network whose Beef listing is one entry with an empty id. -/
def netEmptyId : Net := fun r =>
  match r with
  | .filterByCategory "Beef" => .meals [some (mkSummary "" "Stew")]
  | _ => .failed

/-- A network with Beef = [1, 2] and Chicken = [2, 3]. -/
def netBeefChicken : Net := fun r =>
  match r with
  | .filterByCategory "Beef" => .meals [some (mkSummary "1" "Pie"), some (mkSummary "2" "Stew")]
  | .filterByCategory "Chicken" =>
    .meals [some (mkSummary "2" "Stew again"), some (mkSummary "3" "Curry")]
  | _ => .failed

/-- A favourites map holding recipe 1 under an old title. -/
def favOld : FavMap := [("1", mkSummary "1" "Old title")]

/-! ## The filter claims in their own words -/

/-- The cross-filter as the claim words it: the entries of the category
listing, in listing order, whose detail lookup succeeded with a detail of the
selected area, each projected to its own id, title and thumbnail. -/
def crossFilterByListing (net : Net) (area : String) (listing : List Meal) : List Meal :=
  (listing.filter (fun e =>
    truthy e.idMeal &&
      match fetchMealDetail net (jsString e.idMeal) with
      | some d => d.strArea == some area
      | none => false)).map summary

/-- The search post-filters as the claim words them: favourites when
`favoritesOnly` is set, the area when one is set, the category when it is not
`all`. -/
def searchFilterByClaim (favMap : FavMap) (st : State) (hits : List Meal) : List Meal :=
  (hits.filter (fun h =>
    (!st.favoritesOnly || (favMap.lookup (jsString h.idMeal)).isSome) &&
    (st.area == "" || h.strArea == some st.area) &&
    (st.category == "all" || h.strCategory == some st.category))).map summary

/-- The network in which every failed category request delivered an empty
listing instead. -/
def absorbFailures (net : Net) : Net := fun r =>
  match r with
  | .filterByCategory c =>
    (match net (.filterByCategory c) with
      | .failed => .meals []
      | other => other)
  | other => net other

/-- A network for the cross-filter scenario: Seafood lists recipes 10, 11 and
12; recipe 10 is French, recipe 11 is Canadian and its detail carries another
title than the listing, recipe 12 is not found. -/
def netSeafood : Net := fun r =>
  match r with
  | .filterByCategory "Seafood" =>
    .meals [some (mkSummary "10" "Bouillabaisse"), some (mkSummary "11" "Salmon"),
            some (mkSummary "12" "Chowder")]
  | .lookup "10" => .meals [some (mkDetail "10" "Bouillabaisse" "French" "Seafood")]
  | .lookup "11" => .meals [some (mkDetail "11" "Maple salmon" "Canadian" "Seafood")]
  | .lookup "12" => .noMeals
  | _ => .failed

/-- A network whose search for chicken finds recipes 5 and 6. -/
def netChicken : Net := fun r =>
  match r with
  | .search "chicken" =>
    .meals [some (mkDetail "5" "Chicken pie" "British" "Chicken"),
            some (mkDetail "6" "Chicken curry" "Indian" "Chicken")]
  | _ => .failed

/-- A network whose search for chicken finds recipe 5 and a recipe whose id
is the inherited property name `constructor`. -/
def netInherited : Net := fun r =>
  match r with
  | .search "chicken" =>
    .meals [some (mkDetail "5" "Chicken pie" "British" "Chicken"),
            some (mkDetail "constructor" "Chicken soup" "British" "Chicken")]
  | _ => .failed

/-- A network in which the Beef and Pork listings arrive and every other
request, the Chicken listing included, fails. -/
def netBeefOnly : Net := fun r =>
  match r with
  | .filterByCategory "Beef" => .meals [some (mkSummary "1" "Pie"), some (mkSummary "2" "Stew")]
  | .filterByCategory "Pork" => .meals [some (mkSummary "2" "Stew again"), some (mkSummary "4" "Ribs")]
  | _ => .failed

/-! ## All pages of a list -/

/-- The page the paginator cuts when the state asks for page `k`: the slice
of `paginateAndRender` run with `state.page = k`. -/
def pageAt {α : Type} (throwsOn : α → Bool) (st : State) (meals : List α) (k : Nat) :
    List α :=
  (paginateAndRender throwsOn { st with page := k } meals).pageItems

/-- The pages cut for page = 1, 2, ..., totalPages, in page order. -/
def allPages {α : Type} (throwsOn : α → Bool) (st : State) (meals : List α) :
    List (List α) :=
  (List.range (totalPagesOf meals.length st.pageSize)).map
    (fun i => pageAt throwsOn st meals (i + 1))

/-! ## Lemmas -/

theorem ceilDiv_eq_ceil (n p : Nat) (hp : 0 < p) :
    ceilDiv n p = ⌈(n : ℚ) / (p : ℚ)⌉₊ := by
  have hpq : (0 : ℚ) < (p : ℚ) := by exact_mod_cast hp
  apply le_antisymm
  · -- ceilDiv ≤ ceil
    have h1 : (n : ℚ) / p ≤ (⌈(n : ℚ) / (p : ℚ)⌉₊ : ℚ) := Nat.le_ceil _
    have h2 : (n : ℚ) ≤ (⌈(n : ℚ) / (p : ℚ)⌉₊ : ℚ) * p := by
      rwa [div_le_iff₀ hpq] at h1
    have h3 : n ≤ ⌈(n : ℚ) / (p : ℚ)⌉₊ * p := by exact_mod_cast h2
    unfold ceilDiv
    generalize ⌈(n : ℚ) / (p : ℚ)⌉₊ = c at h3
    have h4 : (n + p - 1) / p < c + 1 := by
      rw [Nat.div_lt_iff_lt_mul hp]
      have : (c + 1) * p = c * p + p := by ring
      omega
    omega
  · rw [Nat.ceil_le, div_le_iff₀ hpq]
    have h : n ≤ ceilDiv n p * p := by
      unfold ceilDiv
      have := Nat.div_add_mod (n + p - 1) p
      have hm := Nat.mod_lt (n + p - 1) hp
      rw [Nat.mul_comm] at this
      omega
    exact_mod_cast h

theorem slice_window {α : Type} (xs : List α) (a p : Nat) :
    slice xs (a : Int) ((a : Int) + (p : Int)) = (xs.drop a).take p := by
  unfold slice relIndex
  have h1 : ¬ ((a : Int) < 0) := by omega
  have h2 : ¬ ((a : Int) + (p : Int) < 0) := by omega
  simp only [h1, h2, if_false]
  have e1 : (a : Int).toNat = a := by simp
  have e2 : ((a : Int) + (p : Int)).toNat = a + p := by omega
  rw [e1, e2]
  by_cases h : a ≤ xs.length
  · rw [Nat.min_eq_left h]
    apply List.ext_getElem?
    intro i
    simp only [List.getElem?_take, List.getElem?_drop]
    by_cases hi : i < p
    · by_cases hi2 : i < min (a + p) xs.length - a
      · simp [hi, hi2]
      · have : xs.length ≤ a + i := by omega
        simp [hi, hi2, List.getElem?_eq_none this]
    · have : ¬ i < min (a + p) xs.length - a := by omega
      simp [hi, this]
  · have h3 : xs.length ≤ a := by omega
    rw [Nat.min_eq_right h3, List.drop_eq_nil_of_le h3, List.drop_eq_nil_of_le (Nat.le_refl _)]
    simp

theorem totalPagesOf_eq (n p : Nat) (hp : 0 < p) :
    totalPagesOf n p = max 1 ⌈(n : ℚ) / (p : ℚ)⌉₊ := by
  unfold totalPagesOf
  rw [ceilDiv_eq_ceil n p hp]

theorem totalPagesOf_pos (n p : Nat) : 1 ≤ totalPagesOf n p := by
  unfold totalPagesOf
  exact Nat.le_max_left _ _

theorem paginate_state {α : Type} (f : α → Bool) (st : State) (meals : List α) :
    (paginateAndRender f st meals).state
      = { st with page := min st.page (totalPagesOf meals.length st.pageSize) } := by
  have h : (paginateAndRender f st meals).state
      = if st.page > totalPagesOf meals.length st.pageSize
        then { st with page := totalPagesOf meals.length st.pageSize } else st := by
    rfl
  rw [h]
  by_cases h2 : st.page > totalPagesOf meals.length st.pageSize
  · rw [if_pos h2, Nat.min_eq_right (Nat.le_of_lt h2)]
  · rw [if_neg h2, Nat.min_eq_left (Nat.le_of_not_gt h2)]

theorem paginate_totalPages {α : Type} (f : α → Bool) (st : State) (meals : List α) :
    (paginateAndRender f st meals).totalPages = totalPagesOf meals.length st.pageSize := by
  rfl

theorem paginate_pageSize {α : Type} (f : α → Bool) (st : State) (meals : List α) :
    (paginateAndRender f st meals).state.pageSize = st.pageSize := by
  rw [paginate_state]

theorem paginate_slice {α : Type} (f : α → Bool) (st : State) (meals : List α) :
    (paginateAndRender f st meals).pageItems
      = slice meals ((((paginateAndRender f st meals).state.page : Int) - 1)
            * (st.pageSize : Int))
          ((((paginateAndRender f st meals).state.page : Int) - 1) * (st.pageSize : Int)
            + (st.pageSize : Int)) := by
  rfl

theorem paginate_items {α : Type} (f : α → Bool) (st : State) (meals : List α)
    (hp : 1 ≤ st.page) :
    (paginateAndRender f st meals).pageItems
      = (meals.drop (((paginateAndRender f st meals).state.page - 1) * st.pageSize)).take
          st.pageSize := by
  have h1 : 1 ≤ (paginateAndRender f st meals).state.page := by
    rw [paginate_state]
    exact Nat.le_min.mpr ⟨hp, totalPagesOf_pos _ _⟩
  rw [paginate_slice]
  generalize (paginateAndRender f st meals).state.page = q at h1
  have e : ((q : Int) - 1) * (st.pageSize : Int) = (((q - 1) * st.pageSize : Nat) : Int) := by
    rw [Nat.cast_mul, Nat.cast_sub h1]
    simp
  rw [e, slice_window]

theorem paginate_threw {α : Type} (f : α → Bool) (st : State) (meals : List α) :
    (paginateAndRender f st meals).threw
      = (renderMealCards f (paginateAndRender f st meals).pageItems).2 := by
  have h : (paginateAndRender f st meals).threw
      = if (paginateAndRender f st meals).pageItems.length = 0 then false
        else (renderMealCards f (paginateAndRender f st meals).pageItems).2 := by
    rfl
  rw [h]
  split
  · rename_i h0
    rw [List.length_eq_zero.mp h0]
    rfl
  · rfl

theorem paginate_results {α : Type} (f : α → Bool) (st : State) (meals : List α) :
    (paginateAndRender f st meals).results
      = if (paginateAndRender f st meals).pageItems.length = 0
        then Results.text "No recipes found."
        else Results.cards (renderMealCards f (paginateAndRender f st meals).pageItems).1 := by
  rfl

theorem paginate_pager {α : Type} (f : α → Bool) (st : State) (meals : List α) :
    (paginateAndRender f st meals).pager
      = if (paginateAndRender f st meals).threw then none
        else some (renderPagination (paginateAndRender f st meals).state meals.length) := by
  rfl

theorem renderMealCards_of_none_throws {α : Type} (f : α → Bool) (l : List α)
    (h : ∀ x ∈ l, f x = false) : renderMealCards f l = (l, false) := by
  induction l with
  | nil => rfl
  | cons x rest ih =>
    have hx : f x = false := h x (List.mem_cons_self _ _)
    have hr := ih (fun y hy => h y (List.mem_cons_of_mem _ hy))
    simp [renderMealCards, hx, hr]

theorem renderMealCards_threw_iff {α : Type} (f : α → Bool) (l : List α) :
    (renderMealCards f l).2 = l.any f := by
  induction l with
  | nil => rfl
  | cons x rest ih =>
    cases hx : f x with
    | true => simp [renderMealCards, hx]
    | false => simp [renderMealCards, hx, ih]

theorem renderMealCards_cards {α : Type} (f : α → Bool) (l : List α) :
    (renderMealCards f l).1 = l.takeWhile (fun x => !f x) := by
  induction l with
  | nil => rfl
  | cons x rest ih =>
    cases hx : f x with
    | true => simp [renderMealCards, hx, List.takeWhile_cons]
    | false => simp [renderMealCards, hx, ih, List.takeWhile_cons]

/-- C1: for a positive page size, `paginateAndRender` computes
`totalPages = max(1, ceil(N / P))` and leaves `state.page = min(page,
totalPages)`, every other field of the state untouched: a page beyond
`totalPages` becomes `totalPages`, a page within range stays as it is.  The
pagination controls, written unless drawing a card threw, show that page and
that number of pages. -/
theorem paginateAndRender_clamps_page {α : Type} (f : α → Bool) (st : State)
    (meals : List α) (hP : 0 < st.pageSize) :
    (paginateAndRender f st meals).totalPages
        = max 1 ⌈(meals.length : ℚ) / (st.pageSize : ℚ)⌉₊ ∧
    (paginateAndRender f st meals).state
        = { st with page := min st.page (max 1 ⌈(meals.length : ℚ) / (st.pageSize : ℚ)⌉₊) } ∧
    (max 1 ⌈(meals.length : ℚ) / (st.pageSize : ℚ)⌉₊ < st.page →
        (paginateAndRender f st meals).state.page
          = max 1 ⌈(meals.length : ℚ) / (st.pageSize : ℚ)⌉₊) ∧
    (st.page ≤ max 1 ⌈(meals.length : ℚ) / (st.pageSize : ℚ)⌉₊ →
        (paginateAndRender f st meals).state = st) ∧
    ((paginateAndRender f st meals).threw = false →
        ∃ p : Pager, (paginateAndRender f st meals).pager = some p ∧
          p.totalPages = max 1 ⌈(meals.length : ℚ) / (st.pageSize : ℚ)⌉₊ ∧
          p.pageShown = (paginateAndRender f st meals).state.page) ∧
    ((paginateAndRender f st meals).threw = true →
        (paginateAndRender f st meals).pager = none) ∧
    (paginateAndRender f st meals).threw
        = (paginateAndRender f st meals).pageItems.any f := by
  have ht := totalPagesOf_eq meals.length st.pageSize hP
  have hs := paginate_state f st meals
  rw [ht] at hs
  refine ⟨?_, hs, ?_, ?_, ?_, ?_, ?_⟩
  · rw [paginate_totalPages, ht]
  · intro h
    rw [hs]
    exact Nat.min_eq_right (Nat.le_of_lt h)
  · intro h
    rw [hs, Nat.min_eq_left h]
  · intro h
    refine ⟨renderPagination (paginateAndRender f st meals).state meals.length, ?_, ?_, rfl⟩
    · rw [paginate_pager, h]
      rfl
    · simp only [renderPagination, paginate_pageSize]
      exact ht
  · intro h
    rw [paginate_pager, h]
    rfl
  · rw [paginate_threw, renderMealCards_threw_iff]

/-- Witness for C1: ten items, page size 8, requested page 5. -/
theorem paginateAndRender_clamps_page_witness :
    (paginateAndRender (fun _ => false)
        { area := "", category := "all", favoritesOnly := false, search := "",
          page := 5, pageSize := 8 } (List.range 10)).totalPages
      = max 1 ⌈((List.range 10).length : ℚ) / ((8 : Nat) : ℚ)⌉₊ :=
  (paginateAndRender_clamps_page (fun _ => false)
      { area := "", category := "all", favoritesOnly := false, search := "",
        page := 5, pageSize := 8 } (List.range 10) (by decide)).1

/-- C2: for a positive page size and a requested page of at least 1, the
page cut by `paginateAndRender` holds exactly the items at the indices
`(clampedPage - 1) * pageSize + i` for `i < pageSize` that exist in the list,
in list order.  That page is what is handed to `renderMealCards` (or the text
`No recipes found.` is shown when it is empty), and its cards are what
`#results` holds when no card throws.  An empty list gives an empty page with
`totalPages = 1` and `clampedPage = 1`; ten items with page size 8 and page 2
give items 8 and 9 with `totalPages = 2` and `clampedPage = 2`. -/
theorem paginateAndRender_page_items {α : Type} (f : α → Bool) (st : State)
    (meals : List α) (hP : 0 < st.pageSize) (hp : 1 ≤ st.page) :
    (∀ i : Nat, (paginateAndRender f st meals).pageItems[i]?
        = if i < st.pageSize
          then meals[((paginateAndRender f st meals).state.page - 1) * st.pageSize + i]?
          else none) ∧
    (paginateAndRender f st meals).results
        = (if (paginateAndRender f st meals).pageItems.length = 0
           then Results.text "No recipes found."
           else Results.cards
             (renderMealCards f (paginateAndRender f st meals).pageItems).1) ∧
    ((∀ x ∈ (paginateAndRender f st meals).pageItems, f x = false) →
      (paginateAndRender f st meals).results
        = (if (paginateAndRender f st meals).pageItems.length = 0
           then Results.text "No recipes found."
           else Results.cards (paginateAndRender f st meals).pageItems)) ∧
    (meals = [] →
        (paginateAndRender f st meals).pageItems = [] ∧
        (paginateAndRender f st meals).totalPages = 1 ∧
        (paginateAndRender f st meals).state.page = 1) ∧
    (st.pageSize = 8 → meals.length = 10 → st.page = 2 →
        (paginateAndRender f st meals).pageItems.length = 2 ∧
        (paginateAndRender f st meals).pageItems[0]? = meals[8]? ∧
        (paginateAndRender f st meals).pageItems[1]? = meals[9]? ∧
        (paginateAndRender f st meals).totalPages = 2 ∧
        (paginateAndRender f st meals).state.page = 2) := by
  have hi := paginate_items f st meals hp
  have hs := paginate_state f st meals
  have hidx : ∀ i : Nat, (paginateAndRender f st meals).pageItems[i]?
        = if i < st.pageSize
          then meals[((paginateAndRender f st meals).state.page - 1) * st.pageSize + i]?
          else none := by
    intro i
    rw [hi, List.getElem?_take]
    by_cases h : i < st.pageSize
    · simp [h, List.getElem?_drop]
    · simp [h]
  refine ⟨hidx, paginate_results f st meals, ?_, ?_, ?_⟩
  · intro hnone
    rw [paginate_results, renderMealCards_of_none_throws f _ hnone]
  · intro hm
    subst hm
    have htp : totalPagesOf ([] : List α).length st.pageSize = 1 := by
      unfold totalPagesOf ceilDiv
      have : (([] : List α).length + st.pageSize - 1) / st.pageSize = 0 := by
        apply Nat.div_eq_of_lt
        simp only [List.length_nil]
        omega
      rw [this]
      rfl
    refine ⟨?_, ?_, ?_⟩
    · rw [hi]; simp
    · rw [paginate_totalPages]
      exact htp
    · rw [hs, htp]
      exact Nat.min_eq_right hp
  · intro h8 h10 h2
    have htp : totalPagesOf meals.length st.pageSize = 2 := by
      rw [h8, h10]; decide
    have hpage : (paginateAndRender f st meals).state.page = 2 := by
      rw [hs, htp, h2]
      rfl
    have hlen : (paginateAndRender f st meals).pageItems.length = 2 := by
      rw [hi, hpage, h8, List.length_take, List.length_drop, h10]
      rfl
    refine ⟨hlen, ?_, ?_, ?_, hpage⟩
    · rw [hidx 0, hpage, h8]; simp
    · rw [hidx 1, hpage, h8]; simp
    · rw [paginate_totalPages]
      exact htp

/-- Witness for C2: ten items, page size 8, page 2. -/
theorem paginateAndRender_page_items_witness :
    (paginateAndRender (fun _ => false)
        { area := "", category := "all", favoritesOnly := false, search := "",
          page := 2, pageSize := 8 } (List.range 10)).pageItems.length = 2 :=
  ((paginateAndRender_page_items (fun _ => false)
      { area := "", category := "all", favoritesOnly := false, search := "",
        page := 2, pageSize := 8 } (List.range 10) (by decide) (by decide)).2.2.2.2
    rfl rfl rfl).1

theorem jsString_inj_of_truthy (v w : Option String) (hv : truthy v = true)
    (hw : truthy w = true) : jsString v = jsString w ↔ v = w := by
  cases v with
  | none => simp [truthy] at hv
  | some a =>
    cases w with
    | none => simp [truthy] at hw
    | some b => simp [jsString]

theorem dedupe_fold (flat : List (Option Meal)) :
    ∀ (c : List Meal) (s : List String) (seen : List (Option String)),
      (∀ v, truthy v = true → (s.contains (jsString v) = seen.contains v)) →
      (flat.foldl dedupeStep (c, s)).1 = c ++ keepUnseen seen (usable flat) := by
  induction flat with
  | nil => intro c s seen _; simp [usable, keepUnseen]
  | cons e rest ih =>
    intro c s seen hs
    cases e with
    | none =>
      have : usable (none :: rest) = usable rest := by simp [usable]
      rw [List.foldl_cons, this]
      exact ih c s seen hs
    | some meal =>
      by_cases ht : truthy meal.idMeal = true
      · have hu : usable (some meal :: rest) = meal :: usable rest := by
          simp [usable, ht]
        rw [List.foldl_cons, hu]
        by_cases hc : seen.contains meal.idMeal = true
        · have hc2 : s.contains (jsString meal.idMeal) = true := by rw [hs _ ht]; exact hc
          have : dedupeStep (c, s) (some meal) = (c, s) := by
            simp only [dedupeStep, ht, hc2]; simp
          rw [this, keepUnseen, if_pos hc]
          exact ih c s seen hs
        · have hc2 : ¬ s.contains (jsString meal.idMeal) = true := by rw [hs _ ht]; exact hc
          have : dedupeStep (c, s) (some meal)
              = (c ++ [meal], s ++ [jsString meal.idMeal]) := by
            simp only [dedupeStep, ht, hc2]; simp
          rw [this, keepUnseen, if_neg hc]
          rw [ih (c ++ [meal]) (s ++ [jsString meal.idMeal]) (meal.idMeal :: seen)]
          · simp
          · intro v hv
            have h1 := hs v hv
            have h2 := jsString_inj_of_truthy v meal.idMeal hv ht
            rw [Bool.eq_iff_iff] at h1 ⊢
            simp only [List.contains_iff_exists_mem_beq, beq_iff_eq, exists_eq_right'] at h1 ⊢
            simp only [List.mem_append, List.mem_cons, List.not_mem_nil, or_false]
            rw [h2]
            constructor
            · rintro (h | h)
              · exact Or.inr (by simpa using h1.mp (by simpa using h))
              · exact Or.inl h
            · rintro (h | h)
              · exact Or.inr h
              · exact Or.inl (by simpa using h1.mpr (by simpa using h))
      · have hu : usable (some meal :: rest) = usable rest := by
          simp [usable, ht]
        have : dedupeStep (c, s) (some meal) = (c, s) := by
          simp only [dedupeStep]; simp [ht]
        rw [List.foldl_cons, hu, this]
        exact ih c s seen hs

theorem dedupe_eq_firstSeen (flat : List (Option Meal)) :
    dedupe flat = firstSeen (usable flat) := by
  unfold dedupe firstSeen
  rw [dedupe_fold flat [] [] [] (by intro v _; rfl)]
  simp

theorem keepUnseen_sublist (l : List Meal) :
    ∀ seen : List (Option String), (keepUnseen seen l).Sublist l := by
  induction l with
  | nil => intro seen; simp [keepUnseen]
  | cons x rest ih =>
    intro seen
    rw [keepUnseen]
    split
    · exact (ih seen).trans (List.sublist_cons_self x rest)
    · exact (ih _).cons₂ x

theorem keepUnseen_not_seen (l : List Meal) :
    ∀ (seen : List (Option String)) (e : Meal),
      e ∈ keepUnseen seen l → e.idMeal ∉ seen := by
  induction l with
  | nil => intro seen e h; simp [keepUnseen] at h
  | cons x rest ih =>
    intro seen e h
    rw [keepUnseen] at h
    split at h
    · exact ih seen e h
    · rename_i hc
      rcases List.mem_cons.mp h with h | h
      · subst h
        simpa using hc
      · intro hmem
        exact ih _ e h (List.mem_cons_of_mem _ hmem)

theorem keepUnseen_nodup (l : List Meal) :
    ∀ seen : List (Option String), ((keepUnseen seen l).map Meal.idMeal).Nodup := by
  induction l with
  | nil => intro seen; simp [keepUnseen]
  | cons x rest ih =>
    intro seen
    rw [keepUnseen]
    split
    · exact ih seen
    · rw [List.map_cons, List.nodup_cons]
      refine ⟨?_, ih _⟩
      intro hmem
      obtain ⟨e, he, hid⟩ := List.mem_map.mp hmem
      exact keepUnseen_not_seen rest _ e he (by rw [hid]; exact List.mem_cons_self _ _)

theorem keepUnseen_complete (l : List Meal) :
    ∀ (seen : List (Option String)) (e : Meal),
      e ∈ l → e.idMeal ∉ seen → e.idMeal ∈ (keepUnseen seen l).map Meal.idMeal := by
  induction l with
  | nil => intro seen e h; simp at h
  | cons x rest ih =>
    intro seen e h hns
    rw [keepUnseen]
    split
    · rename_i hc
      rcases List.mem_cons.mp h with h | h
      · subst h
        exact absurd (by simpa using hc) hns
      · exact ih seen e h hns
    · rw [List.map_cons]
      rcases List.mem_cons.mp h with h | h
      · subst h
        exact List.mem_cons_self _ _
      · by_cases hx : e.idMeal = x.idMeal
        · rw [hx]; exact List.mem_cons_self _ _
        · apply List.mem_cons_of_mem
          apply ih _ e h
          intro hmem
          rcases List.mem_cons.mp hmem with h2 | h2
          · exact hx h2
          · exact hns h2

theorem keepUnseen_first (l : List Meal) :
    ∀ (seen : List (Option String)) (e : Meal),
      e ∈ keepUnseen seen l → l.find? (fun x => x.idMeal == e.idMeal) = some e := by
  induction l with
  | nil => intro seen e h; simp [keepUnseen] at h
  | cons x rest ih =>
    intro seen e h
    rw [keepUnseen] at h
    split at h
    · rename_i hc
      have hns := keepUnseen_not_seen rest seen e h
      have hne : ¬ x.idMeal = e.idMeal := by
        intro hx
        apply hns
        rw [← hx]
        simpa using hc
      rw [List.find?_cons_of_neg]
      · exact ih seen e h
      · simpa using hne
    · rcases List.mem_cons.mp h with h | h
      · subst h
        simp
      · have hns := keepUnseen_not_seen rest _ e h
        have hne : ¬ x.idMeal = e.idMeal := by
          intro hx
          apply hns
          rw [← hx]
          exact List.mem_cons_self _ _
        rw [List.find?_cons_of_neg]
        · exact ih _ e h
        · simpa using hne

theorem usable_sublist (flat : List (Option Meal)) :
    ((usable flat).map some).Sublist flat := by
  induction flat with
  | nil => simp [usable]
  | cons e rest ih =>
    cases e with
    | none =>
      have : usable (none :: rest) = usable rest := by simp [usable]
      rw [this]
      exact ih.trans (List.sublist_cons_self _ _)
    | some meal =>
      by_cases ht : truthy meal.idMeal = true
      · have hu : usable (some meal :: rest) = meal :: usable rest := by simp [usable, ht]
        rw [hu, List.map_cons]
        exact ih.cons₂ _
      · have hu : usable (some meal :: rest) = usable rest := by simp [usable, ht]
        rw [hu]
        exact ih.trans (List.sublist_cons_self _ _)

theorem mem_usable (flat : List (Option Meal)) (e : Meal) :
    e ∈ usable flat ↔ some e ∈ flat ∧ truthy e.idMeal = true := by
  simp [usable, List.mem_filter, List.mem_filterMap]

theorem getAllMeals_meals (net : Net) (categoriesList : List String) :
    (getAllMeals net categoriesList).meals
      = dedupe (((getAllMeals net categoriesList).categories.map (fetchCategory net)).flatten) := by
  unfold getAllMeals
  cases h : loadCategories net categoriesList with
  | none =>
    have hl : categoriesList = [] := by
      unfold loadCategories at h
      by_cases h0 : categoriesList.length = 0
      · exact List.length_eq_zero.mp h0
      · simp [h0] at h
    subst hl
    simp [dedupe]
  | some cats => simp

/-- C3 (amended): `getAllMeals` returns the per-category lists, flattened in
registry order, with every `null` entry and every entry without a non-empty
`idMeal` dropped and then every entry whose id was already seen removed.  The
result has no two entries with the same id, is at most as long as the
per-category lists together, keeps the order of the flattened list, holds
for each id the first usable entry carrying it, and covers every id of a
usable entry; Beef = [1, 2] and Chicken = [2, 3] give [1, 2, 3]. -/
theorem getAllMeals_first_seen (net : Net) (categoriesList : List String) :
    (getAllMeals net categoriesList).meals
      = firstSeen (usable
          (((getAllMeals net categoriesList).categories.map (fetchCategory net)).flatten)) ∧
    ((getAllMeals net categoriesList).meals.map Meal.idMeal).Nodup ∧
    (getAllMeals net categoriesList).meals.length
      ≤ (((getAllMeals net categoriesList).categories.map
            (fun c => (fetchCategory net c).length)).sum) ∧
    ((getAllMeals net categoriesList).meals.map some).Sublist
      (((getAllMeals net categoriesList).categories.map (fetchCategory net)).flatten) ∧
    (∀ e ∈ (getAllMeals net categoriesList).meals,
      (usable (((getAllMeals net categoriesList).categories.map
          (fetchCategory net)).flatten)).find? (fun x => x.idMeal == e.idMeal) = some e) ∧
    (∀ e : Meal,
      some e ∈ ((getAllMeals net categoriesList).categories.map (fetchCategory net)).flatten →
      truthy e.idMeal = true →
      e.idMeal ∈ (getAllMeals net categoriesList).meals.map Meal.idMeal) ∧
    (∀ b1 b2 c2 c3 : Meal,
      b1.idMeal = some "1" → b2.idMeal = some "2" →
      c2.idMeal = some "2" → c3.idMeal = some "3" →
      categoriesList = ["Beef", "Chicken"] →
      net (.filterByCategory "Beef") = .meals [some b1, some b2] →
      net (.filterByCategory "Chicken") = .meals [some c2, some c3] →
      (getAllMeals net categoriesList).meals = [b1, b2, c3]) := by
  have hm := getAllMeals_meals net categoriesList
  rw [dedupe_eq_firstSeen] at hm
  generalize hflat : ((getAllMeals net categoriesList).categories.map
      (fetchCategory net)).flatten = flat at hm
  have hsub : ((getAllMeals net categoriesList).meals.map some).Sublist flat := by
    rw [hm]
    exact ((keepUnseen_sublist (usable flat) []).map some).trans (usable_sublist flat)
  refine ⟨hm, ?_, ?_, hsub, ?_, ?_, ?_⟩
  · rw [hm]; exact keepUnseen_nodup _ _
  · have h1 := hsub.length_le
    rw [List.length_map] at h1
    have h2 : flat.length = ((getAllMeals net categoriesList).categories.map
        (fun c => (fetchCategory net c).length)).sum := by
      rw [← hflat, List.length_flatten, List.map_map]
      rfl
    omega
  · intro e he
    rw [hm] at he
    exact keepUnseen_first _ _ e he
  · intro e he ht
    rw [hm]
    exact keepUnseen_complete _ [] e ((mem_usable flat e).mpr ⟨he, ht⟩) (by simp)
  · intro b1 b2 c2 c3 h1 h2 h3 h4 hc hB hC
    subst hc
    have hflat2 : flat = [some b1, some b2, some c2, some c3] := by
      rw [← hflat]
      simp [getAllMeals, loadCategories, fetchCategory, mealsOrEmpty, hB, hC]
    rw [hm, hflat2]
    simp [usable, truthy, h1, h2, h3, h4, firstSeen, keepUnseen]

/-- C3, witness of the amended statement on Beef = [1, 2], Chicken = [2, 3]. -/
theorem getAllMeals_first_seen_witness :
    (getAllMeals netBeefChicken ["Beef", "Chicken"]).meals
      = [mkSummary "1" "Pie", mkSummary "2" "Stew", mkSummary "3" "Curry"] :=
  (getAllMeals_first_seen netBeefChicken ["Beef", "Chicken"]).2.2.2.2.2.2
    (mkSummary "1" "Pie") (mkSummary "2" "Stew") (mkSummary "2" "Stew again")
    (mkSummary "3" "Curry") rfl rfl rfl rfl rfl rfl rfl

/-- C3 as stated fails: a Beef listing whose only entry has an empty id is
aggregated to the empty list, although no id was seen before that entry, so
removing only already-seen entries would keep it. -/
theorem getAllMeals_drops_entry_with_empty_id :
    (getAllMeals netEmptyId ["Beef"]).meals = [] ∧
    firstSeen (((["Beef"].map (fetchCategory netEmptyId)).flatten).filterMap id)
      = [mkSummary "" "Stew"] ∧
    (getAllMeals netEmptyId ["Beef"]).meals
      ≠ firstSeen (((["Beef"].map (fetchCategory netEmptyId)).flatten).filterMap id) := by
  decide

theorem lookup_deleteProp (m : FavMap) (k k2 : String) :
    (deleteProp m k).lookup k2 = if k2 = k then none else m.lookup k2 := by
  unfold deleteProp
  induction m with
  | nil => simp
  | cons e rest ih =>
    obtain ⟨a, v⟩ := e
    by_cases ha : a = k
    · subst ha
      have : List.filter (fun e => e.1 != a) ((a, v) :: rest)
          = List.filter (fun e => e.1 != a) rest := by
        simp
      rw [this, ih]
      by_cases h2 : k2 = a
      · simp [h2]
      · have : (k2 == a) = false := by simpa using h2
        simp [h2, List.lookup_cons, this]
    · have : List.filter (fun e => e.1 != k) ((a, v) :: rest)
          = (a, v) :: List.filter (fun e => e.1 != k) rest := by
        simp [ha]
      rw [this, List.lookup_cons, List.lookup_cons, ih]
      by_cases h2 : k2 = a
      · subst h2
        simp [ha]
      · have : (k2 == a) = false := by simpa using h2
        simp [this]

theorem lookup_append_single (m : FavMap) (k k2 : String) (v : Meal) :
    (m ++ [(k, v)]).lookup k2
      = match m.lookup k2 with
        | some x => some x
        | none => if k2 = k then some v else none := by
  induction m with
  | nil =>
    by_cases h : k2 = k
    · simp [List.lookup_cons, h]
    · have : (k2 == k) = false := by simpa using h
      simp [List.lookup_cons, h, this]
  | cons e rest ih =>
    obtain ⟨a, w⟩ := e
    by_cases h2 : k2 = a
    · subst h2
      simp [List.lookup_cons]
    · have : (k2 == a) = false := by simpa using h2
      simp only [List.cons_append, List.lookup_cons, this]
      exact ih

theorem lookup_setProp_of_absent (m : FavMap) (k k2 : String) (v : Meal)
    (h : m.lookup k = none) :
    (setProp m k v).lookup k2 = if k2 = k then some v else m.lookup k2 := by
  unfold setProp
  rw [h]
  simp only [Option.isSome_none, Bool.false_eq_true, if_false]
  rw [lookup_append_single]
  by_cases h2 : k2 = k
  · subst h2
    rw [h]
  · simp only [h2, if_false]
    cases m.lookup k2 <;> rfl

theorem toggleFavorite_object (m : FavMap) (meal : Meal) :
    toggleFavorite true (.object m) meal
      = .ok (.object (if readsTruthy m (jsString meal.idMeal)
          then deleteProp m (jsString meal.idMeal)
          else setProp m (jsString meal.idMeal) (summary meal))) := by
  rfl

theorem lookup_toggled (m : FavMap) (meal : Meal) (k2 : String) :
    (if readsTruthy m (jsString meal.idMeal)
      then deleteProp m (jsString meal.idMeal)
      else setProp m (jsString meal.idMeal) (summary meal)).lookup k2
    = if k2 = jsString meal.idMeal
      then (if readsTruthy m (jsString meal.idMeal) then none else some (summary meal))
      else m.lookup k2 := by
  cases h : readsTruthy m (jsString meal.idMeal) with
  | true =>
    simp only [if_true]
    exact lookup_deleteProp m _ k2
  | false =>
    simp only [Bool.false_eq_true, if_false]
    have habs : m.lookup (jsString meal.idMeal) = none := by
      unfold readsTruthy at h
      cases hx : m.lookup (jsString meal.idMeal) with
      | none => rfl
      | some x => rw [hx] at h; simp at h
    exact lookup_setProp_of_absent m _ k2 _ habs

theorem readsTruthy_of_not_inherited (m : FavMap) (k : String)
    (hk : inheritedKeys.contains k = false) :
    readsTruthy m k = (m.lookup k).isSome := by
  unfold readsTruthy
  rw [hk, Bool.or_false]

theorem readsTruthy_of_inherited (m : FavMap) (k : String)
    (hk : inheritedKeys.contains k = true) :
    readsTruthy m k = true := by
  unfold readsTruthy
  rw [hk, Bool.or_true]

/-- C4 (amended): with both writes succeeding, two calls of
`toggleFavorite(meal)` in a row leave the entry of every other id as it was
and leave an absent id absent; an id that was present ends up holding the
three summary fields of the meal passed in (or, when the id is a name
inherited from `Object.prototype`, ends up absent).  So the map returns to
its original content exactly when the id was absent, or is not an inherited
name and its stored entry already equalled those three fields.  With both
writes failing the blob is untouched. -/
theorem toggleFavorite_twice (m : FavMap) (meal : Meal) :
    ∃ m2 : FavMap,
      toggleTwice true true (.object m) meal = .ok (.object m2) ∧
      (∀ k2 : String, k2 ≠ jsString meal.idMeal → m2.lookup k2 = m.lookup k2) ∧
      (m.lookup (jsString meal.idMeal) = none → m2.lookup (jsString meal.idMeal) = none) ∧
      (m.lookup (jsString meal.idMeal) ≠ none →
        m2.lookup (jsString meal.idMeal)
          = if inheritedKeys.contains (jsString meal.idMeal) then none
            else some (summary meal)) ∧
      (sameContent m2 m ↔
        (m.lookup (jsString meal.idMeal) = none ∨
         (inheritedKeys.contains (jsString meal.idMeal) = false ∧
          m.lookup (jsString meal.idMeal) = some (summary meal)))) ∧
      toggleTwice false false (.object m) meal = .ok (.object m) := by
  let m1 : FavMap := if readsTruthy m (jsString meal.idMeal)
      then deleteProp m (jsString meal.idMeal)
      else setProp m (jsString meal.idMeal) (summary meal)
  let m2 : FavMap := if readsTruthy m1 (jsString meal.idMeal)
      then deleteProp m1 (jsString meal.idMeal)
      else setProp m1 (jsString meal.idMeal) (summary meal)
  have hrun : toggleTwice true true (.object m) meal = .ok (.object m2) := by
    unfold toggleTwice
    rw [toggleFavorite_object]
    simp only
    rw [toggleFavorite_object]
  have hl1 : ∀ k2, m1.lookup k2 = if k2 = jsString meal.idMeal
      then (if readsTruthy m (jsString meal.idMeal) then none else some (summary meal))
      else m.lookup k2 := fun k2 => lookup_toggled m meal k2
  have hl2 : ∀ k2, m2.lookup k2 = if k2 = jsString meal.idMeal
      then (if readsTruthy m1 (jsString meal.idMeal) then none else some (summary meal))
      else m1.lookup k2 := fun k2 => lookup_toggled m1 meal k2
  have hother : ∀ k2 : String, k2 ≠ jsString meal.idMeal → m2.lookup k2 = m.lookup k2 := by
    intro k2 hk
    rw [hl2, if_neg hk, hl1, if_neg hk]
  have hkey : m2.lookup (jsString meal.idMeal)
      = if inheritedKeys.contains (jsString meal.idMeal) then none
        else if (m.lookup (jsString meal.idMeal)).isSome then some (summary meal)
        else none := by
    rw [hl2, if_pos rfl]
    have hr1 : readsTruthy m1 (jsString meal.idMeal)
        = (!readsTruthy m (jsString meal.idMeal)
            || inheritedKeys.contains (jsString meal.idMeal)) := by
      show ((m1.lookup (jsString meal.idMeal)).isSome
          || inheritedKeys.contains (jsString meal.idMeal)) = _
      rw [hl1, if_pos rfl]
      cases readsTruthy m (jsString meal.idMeal) <;> rfl
    rw [hr1]
    unfold readsTruthy
    cases inheritedKeys.contains (jsString meal.idMeal) <;>
      cases (m.lookup (jsString meal.idMeal)).isSome <;> rfl
  have habs : m.lookup (jsString meal.idMeal) = none →
      m2.lookup (jsString meal.idMeal) = none := by
    intro h
    rw [hkey, h]
    cases inheritedKeys.contains (jsString meal.idMeal) <;> rfl
  have hpres : m.lookup (jsString meal.idMeal) ≠ none →
      m2.lookup (jsString meal.idMeal)
        = if inheritedKeys.contains (jsString meal.idMeal) then none
          else some (summary meal) := by
    intro h
    rw [hkey]
    cases hx : m.lookup (jsString meal.idMeal) with
    | none => exact absurd hx h
    | some x => cases inheritedKeys.contains (jsString meal.idMeal) <;> rfl
  refine ⟨m2, hrun, hother, habs, hpres, ?_, ?_⟩
  · constructor
    · intro hs
      have hk := hs (jsString meal.idMeal)
      cases hx : m.lookup (jsString meal.idMeal) with
      | none => exact Or.inl rfl
      | some x =>
        right
        rw [hpres (by rw [hx]; simp), hx] at hk
        cases hi : inheritedKeys.contains (jsString meal.idMeal) with
        | true => rw [hi] at hk; simp at hk
        | false =>
          rw [hi] at hk
          exact ⟨rfl, by simpa using hk.symm⟩
    · intro h k2
      by_cases hk : k2 = jsString meal.idMeal
      · subst hk
        rcases h with h | ⟨hi, h⟩
        · rw [habs h, h]
        · rw [hpres (by rw [h]; simp), h, hi]
          rfl
      · exact hother k2 hk
  · rfl

/-- C4 as stated fails: recipe 1 is stored under an old title; toggling twice
with a summary of recipe 1 that carries a new title leaves the new title in
the map. -/
theorem toggleFavorite_twice_replaces_entry :
    toggleTwice true true (.object favOld) (mkSummary "1" "New title")
      = .ok (.object [("1", mkSummary "1" "New title")]) ∧
    ¬ sameContent [("1", mkSummary "1" "New title")] favOld := by
  refine ⟨rfl, ?_⟩
  intro h
  have h1 := h "1"
  revert h1
  decide

/-- C4, witness: recipe 7 is absent from the map holding recipe 1, so two
toggles of recipe 7 give back the original content. -/
theorem toggleFavorite_twice_witness :
    ∃ m2 : FavMap,
      toggleTwice true true (.object favOld) (mkSummary "7" "Poutine") = .ok (.object m2) ∧
      sameContent m2 favOld := by
  obtain ⟨m2, h1, _, _, _, h5, _⟩ := toggleFavorite_twice favOld (mkSummary "7" "Poutine")
  exact ⟨m2, h1, h5.mpr (Or.inl (by decide))⟩

/-- C5, the failing input: when the stored text is the JSON literal null,
`getFavoritesMap` returns `null` (the parse succeeds, so nothing is caught)
and `isFavorited` throws a `TypeError` for every id, instead of answering
`false`.  For a blob that is missing, unreadable, empty or not JSON the map
is empty and the answer is `false` for every id except the names inherited
from `Object.prototype`, for which it is `true` (so for `constructor`). -/
theorem isFavorited_throws_on_null_blob (id : Option String) :
    isFavorited .jsonNull id = .error .typeError ∧
    isFavorited .missing id = .ok (inheritedKeys.contains (jsString id)) ∧
    isFavorited .unreadable id = .ok (inheritedKeys.contains (jsString id)) ∧
    isFavorited .empty id = .ok (inheritedKeys.contains (jsString id)) ∧
    isFavorited .malformed id = .ok (inheritedKeys.contains (jsString id)) ∧
    isFavorited .missing (some "52772") = .ok false ∧
    isFavorited .missing (some "constructor") = .ok true :=
  ⟨rfl, rfl, rfl, rfl, rfl, rfl, rfl⟩

/-- What `toggleFavorite` does on a persisted map when the write succeeds.
For an id that is not a name inherited from `Object.prototype` it flips the
membership of that id only: a present id loses its entry, an absent id gets
an entry holding the `idMeal`, `strMeal` and `strMealThumb` of the meal and
nothing else, and `isFavorited` of the id is negated.  For an inherited name
it deletes the own entry, if any, and never inserts.  Every other id reads as
before in both cases. -/
theorem toggleFavorite_effect (m : FavMap) (meal : Meal) :
    ∃ m2 : FavMap,
      toggleFavorite true (.object m) meal = .ok (.object m2) ∧
      (∀ k2 : String, k2 ≠ jsString meal.idMeal → m2.lookup k2 = m.lookup k2) ∧
      (inheritedKeys.contains (jsString meal.idMeal) = false →
        (m.lookup (jsString meal.idMeal) ≠ none → m2.lookup (jsString meal.idMeal) = none) ∧
        (m.lookup (jsString meal.idMeal) = none →
          m2.lookup (jsString meal.idMeal)
            = some { idMeal := meal.idMeal, strMeal := meal.strMeal,
                     strMealThumb := meal.strMealThumb,
                     strArea := none, strCategory := none, rest := [] }) ∧
        (∀ b : Bool, isFavorited (.object m) meal.idMeal = .ok b →
          isFavorited (.object m2) meal.idMeal = .ok (!b))) ∧
      (inheritedKeys.contains (jsString meal.idMeal) = true →
        m2 = deleteProp m (jsString meal.idMeal) ∧
        m2.lookup (jsString meal.idMeal) = none ∧
        isFavorited (.object m) meal.idMeal = .ok true ∧
        isFavorited (.object m2) meal.idMeal = .ok true) := by
  refine ⟨_, toggleFavorite_object m meal, ?_, ?_, ?_⟩
  · intro k2 hk
    rw [lookup_toggled, if_neg hk]
  · intro hi
    have hr := readsTruthy_of_not_inherited m _ hi
    refine ⟨?_, ?_, ?_⟩
    · intro h
      rw [lookup_toggled, if_pos rfl, hr]
      cases hx : m.lookup (jsString meal.idMeal) with
      | none => exact absurd hx h
      | some x => simp
    · intro h
      rw [lookup_toggled, if_pos rfl, hr, h]
      rfl
    · intro b hb
      simp only [isFavorited, getFavoritesMap] at hb ⊢
      rw [readsTruthy_of_not_inherited _ _ hi, lookup_toggled, if_pos rfl]
      rw [hr] at hb ⊢
      cases hx : m.lookup (jsString meal.idMeal) with
      | none =>
        rw [hx] at hb
        simp at hb
        subst hb
        simp
      | some x =>
        rw [hx] at hb
        simp at hb
        subst hb
        simp
  · intro hi
    have hr := readsTruthy_of_inherited m _ hi
    refine ⟨by rw [hr]; rfl, ?_, ?_, ?_⟩
    · rw [lookup_toggled, if_pos rfl, hr]
      rfl
    · simp only [isFavorited, getFavoritesMap, hr]
    · simp only [isFavorited, getFavoritesMap]
      rw [readsTruthy_of_inherited _ _ hi]

/-- C6, the failing input: the map holds recipe 1 only, and the meal toggled
has the id `constructor`.  The read `map["constructor"]` finds the inherited
`Object` function, so the script takes the delete branch, removes nothing and
stores the map unchanged: no entry is inserted, and `isFavorited` answers
`true` both before and after although the id is not a key of the map.  For a
meal with an ordinary id (recipe 7) the entry of its three summary fields is
inserted. -/
theorem toggleFavorite_keeps_map_on_inherited_name :
    toggleFavorite true (.object favOld) (mkSummary "constructor" "Pie")
      = .ok (.object favOld) ∧
    favOld.lookup "constructor" = none ∧
    isFavorited (.object favOld) (some "constructor") = .ok true ∧
    toggleFavorite true (.object favOld) (mkDetail "7" "Poutine" "Canadian" "Side")
      = .ok (.object [("1", mkSummary "1" "Old title"), ("7", mkSummary "7" "Poutine")]) :=
  ⟨rfl, rfl, rfl, rfl⟩

theorem all_isSome_map_some (l : List Meal) : (l.map some).all Option.isSome = true := by
  induction l with
  | nil => rfl
  | cons x rest ih => simp

theorem filterMap_id_map_some (l : List Meal) : (l.map some).filterMap id = l := by
  induction l with
  | nil => rfl
  | cons x rest ih => simp

theorem fetchDetailsForMeals_objects (net : Net) (listing : List Meal) :
    fetchDetailsForMeals net (listing.map some)
      = .ok ((listing.filter (fun e => truthy e.idMeal)).map
                (fun e => Request.lookup (jsString e.idMeal)),
             (listing.filter (fun e => truthy e.idMeal)).filterMap
                (fun e => fetchMealDetail net (jsString e.idMeal))) := by
  unfold fetchDetailsForMeals
  rw [if_pos (all_isSome_map_some listing), filterMap_id_map_some]
  have h : (listing.map (fun m => m.idMeal)).filter truthy
      = (listing.filter (fun e => truthy e.idMeal)).map (fun m => m.idMeal) := by
    rw [List.filter_map]
    rfl
  simp only [h, List.map_map, List.filterMap_map]
  rfl

theorem filter_area_filterMap (net : Net) (area : String) (l : List Meal) :
    ((l.filterMap (fun e => fetchMealDetail net (jsString e.idMeal))).filter
        (fun m => m.strArea == some area)).map summary
      = l.filterMap (fun e =>
          match fetchMealDetail net (jsString e.idMeal) with
          | some d => if d.strArea = some area then some (summary d) else none
          | none => none) := by
  induction l with
  | nil => rfl
  | cons x rest ih =>
    cases hd : fetchMealDetail net (jsString x.idMeal) with
    | none =>
      simp only [List.filterMap_cons, hd]
      exact ih
    | some d =>
      simp only [List.filterMap_cons, hd]
      by_cases ha : d.strArea = some area
      · rw [List.filter_cons_of_pos (by simpa using ha), List.map_cons, ih]
        simp [ha]
      · rw [List.filter_cons_of_neg (by simpa using ha), ih]
        simp [ha]

theorem resolve_category_and_area (net : Net) (blob : Blob) (cats : List String) (st : State)
    (listing : List Meal)
    (hs : st.search = "") (hf : st.favoritesOnly = false)
    (hc : st.category ≠ "all") (ha : st.area ≠ "")
    (hl : mealsOrEmpty (net (.filterByCategory st.category)) = some (listing.map some)) :
    resolve net blob cats st
      = { requests := .filterByCategory st.category ::
            (listing.filter (fun e => truthy e.idMeal)).map
              (fun e => Request.lookup (jsString e.idMeal)),
          categories := cats,
          resolution := .resolved
            (((listing.filter (fun e => truthy e.idMeal)).filterMap (fun e =>
                match fetchMealDetail net (jsString e.idMeal) with
                | some d => if d.strArea = some st.area then some (summary d) else none
                | none => none)).map some) } := by
  unfold resolve
  have h1 : (st.search != "") = false := by simp [hs]
  have h2 : (st.category == "all") = false := by simpa using hc
  have h3 : (st.area != "") = true := by simpa using ha
  rw [h1, hf]
  simp only [Bool.false_eq_true, if_false]
  unfold resolveListing
  rw [h2]
  simp only [Bool.false_eq_true, if_false]
  rw [hl]
  simp only [h3, if_true]
  rw [fetchDetailsForMeals_objects]
  simp only
  rw [filter_area_filterMap]

theorem applyFilters_of_resolved (net : Net) (blob : Blob) (cats : List String) (st : State)
    (meals : List (Option Meal)) (hs : st.search = "")
    (h : (resolve net blob cats st).resolution = .resolved meals) :
    applyFilters net blob cats st
      = { requests := (resolve net blob cats st).requests,
          categories := (resolve net blob cats st).categories,
          resolution := .resolved meals,
          state := (paginateAndRender (cardThrows blob) st meals).state,
          results := (paginateAndRender (cardThrows blob) st meals).results,
          pager := (paginateAndRender (cardThrows blob) st meals).pager,
          rejected := (paginateAndRender (cardThrows blob) st meals).threw } := by
  unfold applyFilters
  have h1 : (st.search != "") = false := by simp [hs]
  simp only [h, h1, Bool.and_false, Bool.false_eq_true, if_false]

theorem crossFilter_eq_of_consistent (net : Net) (area : String) (listing : List Meal)
    (hcons : ∀ e ∈ listing, ∀ d : Meal,
      fetchMealDetail net (jsString e.idMeal) = some d → summary d = summary e) :
    (listing.filter (fun e => truthy e.idMeal)).filterMap (fun e =>
        match fetchMealDetail net (jsString e.idMeal) with
        | some d => if d.strArea = some area then some (summary d) else none
        | none => none)
      = crossFilterByListing net area listing := by
  unfold crossFilterByListing
  induction listing with
  | nil => rfl
  | cons x rest ih =>
    have ih2 := ih (fun e he d hd => hcons e (List.mem_cons_of_mem _ he) d hd)
    by_cases ht : truthy x.idMeal = true
    · cases hd : fetchMealDetail net (jsString x.idMeal) with
      | none =>
        simp only [List.filter_cons, ht, hd, if_true, List.filterMap_cons, Bool.and_false,
          Bool.false_eq_true, if_false]
        exact ih2
      | some d =>
        have hsum := hcons x (List.mem_cons_self _ _) d hd
        by_cases ha : d.strArea = some area
        · simp only [List.filter_cons, ht, hd, if_true, List.filterMap_cons, ha, beq_self_eq_true,
            Bool.and_self, List.map_cons]
          rw [ih2, hsum]
        · have hb : (d.strArea == some area) = false := by simpa using ha
          simp only [List.filter_cons, ht, hd, if_true, List.filterMap_cons, ha, hb,
            Bool.and_false, Bool.false_eq_true, if_false]
          exact ih2
    · simp only [List.filter_cons, ht, Bool.false_eq_true, if_false, Bool.false_and]
      exact ih2

/-- C7 (amended): with search inactive, `favoritesOnly` false, a category
other than `all` and an area set, `applyFilters` requests the category
listing and then one detail per listing entry with a non-empty id, and
resolves to, in listing order, the (id, title, thumbnail) of the fetched
DETAIL of each such entry whose lookup found a detail of the selected area;
an entry whose lookup found nothing or failed is left out.  That list is what
is paginated.  When every detail found repeats the id, title and thumbnail of
its listing entry, this is the listing filtered and projected; ids 10, 11, 12
with only 11 of the selected area give the detail of 11 alone. -/
theorem applyFilters_category_and_area (net : Net) (blob : Blob) (cats : List String)
    (st : State) (listing : List Meal)
    (hs : st.search = "") (hf : st.favoritesOnly = false)
    (hc : st.category ≠ "all") (ha : st.area ≠ "")
    (hl : mealsOrEmpty (net (.filterByCategory st.category)) = some (listing.map some)) :
    (applyFilters net blob cats st).resolution
      = .resolved (((listing.filter (fun e => truthy e.idMeal)).filterMap (fun e =>
          match fetchMealDetail net (jsString e.idMeal) with
          | some d => if d.strArea = some st.area then some (summary d) else none
          | none => none)).map some) ∧
    (applyFilters net blob cats st).requests
      = .filterByCategory st.category ::
          (listing.filter (fun e => truthy e.idMeal)).map
            (fun e => Request.lookup (jsString e.idMeal)) ∧
    (applyFilters net blob cats st).results
      = (paginateAndRender (cardThrows blob) st
          (((listing.filter (fun e => truthy e.idMeal)).filterMap (fun e =>
            match fetchMealDetail net (jsString e.idMeal) with
            | some d => if d.strArea = some st.area then some (summary d) else none
            | none => none)).map some)).results ∧
    ((∀ e ∈ listing, ∀ d : Meal,
        fetchMealDetail net (jsString e.idMeal) = some d → summary d = summary e) →
      (applyFilters net blob cats st).resolution
        = .resolved ((crossFilterByListing net st.area listing).map some)) ∧
    (∀ e10 e11 e12 d11 : Meal,
      listing = [e10, e11, e12] →
      e10.idMeal = some "10" → e11.idMeal = some "11" → e12.idMeal = some "12" →
      fetchMealDetail net "11" = some d11 → d11.strArea = some st.area →
      (∀ d, fetchMealDetail net "10" = some d → d.strArea ≠ some st.area) →
      (∀ d, fetchMealDetail net "12" = some d → d.strArea ≠ some st.area) →
      (applyFilters net blob cats st).resolution = .resolved [some (summary d11)]) := by
  have hr := resolve_category_and_area net blob cats st listing hs hf hc ha hl
  have hres : (resolve net blob cats st).resolution
      = .resolved (((listing.filter (fun e => truthy e.idMeal)).filterMap (fun e =>
          match fetchMealDetail net (jsString e.idMeal) with
          | some d => if d.strArea = some st.area then some (summary d) else none
          | none => none)).map some) := by
    rw [hr]
  have hap := applyFilters_of_resolved net blob cats st _ hs hres
  have h1 : (applyFilters net blob cats st).resolution
      = .resolved (((listing.filter (fun e => truthy e.idMeal)).filterMap (fun e =>
          match fetchMealDetail net (jsString e.idMeal) with
          | some d => if d.strArea = some st.area then some (summary d) else none
          | none => none)).map some) := by
    rw [hap]
  refine ⟨h1, ?_, ?_, ?_, ?_⟩
  · rw [hap, hr]
  · rw [hap]
  · intro hcons
    rw [h1, crossFilter_eq_of_consistent net st.area listing hcons]
  · intro e10 e11 e12 d11 hlist h10 h11 h12 hd11 ha11 hn10 hn12
    rw [h1, hlist]
    have t10 : truthy e10.idMeal = true := by rw [h10]; decide
    have t11 : truthy e11.idMeal = true := by rw [h11]; decide
    have t12 : truthy e12.idMeal = true := by rw [h12]; decide
    have j10 : jsString e10.idMeal = "10" := by rw [h10]; rfl
    have j11 : jsString e11.idMeal = "11" := by rw [h11]; rfl
    have j12 : jsString e12.idMeal = "12" := by rw [h12]; rfl
    simp only [List.filter_cons, t10, t11, t12, if_true, List.filter_nil, List.filterMap_cons,
      List.filterMap_nil, j10, j11, j12, hd11, ha11]
    cases h10d : fetchMealDetail net "10" with
    | none =>
      cases h12d : fetchMealDetail net "12" with
      | none => rfl
      | some d => simp [hn12 d h12d]
    | some d0 =>
      cases h12d : fetchMealDetail net "12" with
      | none => simp [hn10 d0 h10d]
      | some d => simp [hn10 d0 h10d, hn12 d h12d]

/-- C7, witness: Seafood lists 10, 11 and 12, only 11 is Canadian; the
resolved list is the detail of 11, projected. -/
theorem applyFilters_category_and_area_witness :
    (applyFilters netSeafood .missing []
        { initialState with category := "Seafood", area := "Canadian" }).resolution
      = .resolved [some (summary (mkDetail "11" "Maple salmon" "Canadian" "Seafood"))] :=
  (applyFilters_category_and_area netSeafood .missing []
      { initialState with category := "Seafood", area := "Canadian" }
      [mkSummary "10" "Bouillabaisse", mkSummary "11" "Salmon", mkSummary "12" "Chowder"]
      rfl rfl (by decide) (by decide) rfl).2.2.2.2
    (mkSummary "10" "Bouillabaisse") (mkSummary "11" "Salmon") (mkSummary "12" "Chowder")
    (mkDetail "11" "Maple salmon" "Canadian" "Seafood")
    rfl rfl rfl rfl rfl rfl (by decide) (by decide)

/-- C7 as stated fails: the Seafood listing calls recipe 11 `Salmon`, its
detail calls it `Maple salmon`; the resolved entry carries the title of the
detail, not the projection of the listing entry. -/
theorem applyFilters_cross_filter_projects_detail :
    (applyFilters netSeafood .missing []
        { initialState with category := "Seafood", area := "Canadian" }).resolution
      = .resolved [some (mkSummary "11" "Maple salmon")] ∧
    crossFilterByListing netSeafood "Canadian"
        [mkSummary "10" "Bouillabaisse", mkSummary "11" "Salmon", mkSummary "12" "Chowder"]
      = [mkSummary "11" "Salmon"] ∧
    (applyFilters netSeafood .missing []
        { initialState with category := "Seafood", area := "Canadian" }).resolution
      ≠ .resolved ((crossFilterByListing netSeafood "Canadian"
          [mkSummary "10" "Bouillabaisse", mkSummary "11" "Salmon",
           mkSummary "12" "Chowder"]).map some) := by
  decide

theorem resolveSearch_objects (net : Net) (blob : Blob) (st : State) (hits : List Meal)
    (favMap : FavMap)
    (hn : mealsOrEmpty (net (.search st.search)) = some (hits.map some))
    (hfav : st.favoritesOnly = true → getFavoritesMap blob = some favMap) :
    resolveSearch net blob st
      = .resolved (((hits.filter (fun h =>
          (!st.favoritesOnly || readsTruthy favMap (jsString h.idMeal)) &&
          (st.area == "" || h.strArea == some st.area) &&
          (st.category == "" || st.category == "all"
            || h.strCategory == some st.category))).map summary).map some) := by
  unfold resolveSearch
  rw [hn]
  simp only [all_isSome_map_some, if_true, filterMap_id_map_some]
  have e1 : (st.area != "") = !(st.area == "") := rfl
  have e2 : (st.category != "") = !(st.category == "") := rfl
  have e3 : (st.category != "all") = !(st.category == "all") := rfl
  rw [e1, e2, e3]
  generalize (st.area == "") = a
  generalize (st.category == "") = c1
  generalize (st.category == "all") = c2
  cases hfo : st.favoritesOnly with
  | false =>
    cases a <;> cases c1 <;> cases c2 <;> simp [List.filter_filter, Bool.and_comm]
  | true =>
    rw [hfav hfo]
    cases a <;> cases c1 <;> cases c2 <;>
      simp [filterFavorites, List.filter_filter, Bool.and_comm, Bool.and_left_comm]

theorem resolveSearch_null_map (net : Net) (blob : Blob) (st : State) (hits : List Meal)
    (hn : mealsOrEmpty (net (.search st.search)) = some (hits.map some))
    (hfo : st.favoritesOnly = true) (hnull : getFavoritesMap blob = none)
    (hne : hits ≠ []) :
    resolveSearch net blob st = .failed "Search failed." := by
  unfold resolveSearch
  rw [hn]
  simp only [all_isSome_map_some, if_true, filterMap_id_map_some, hfo, hnull, filterFavorites]
  have : ¬ hits.length = 0 := by
    intro h
    exact hne (List.length_eq_zero.mp h)
  rw [if_neg this]

theorem resolve_search (net : Net) (blob : Blob) (cats : List String) (st : State)
    (hs : st.search ≠ "") :
    resolve net blob cats st
      = { requests := [.search st.search], categories := cats,
          resolution := resolveSearch net blob st } := by
  unfold resolve
  have h1 : (st.search != "") = true := by simpa using hs
  rw [h1]
  simp

theorem applyFilters_resolution (net : Net) (blob : Blob) (cats : List String) (st : State) :
    (applyFilters net blob cats st).resolution = (resolve net blob cats st).resolution ∧
    (applyFilters net blob cats st).requests = (resolve net blob cats st).requests := by
  unfold applyFilters
  cases h : (resolve net blob cats st).resolution with
  | resolved meals =>
    simp only [h]
    split <;> exact ⟨rfl, rfl⟩
  | failed msg => simp [h]
  | noFavorites => simp [h]
  | rejected => simp [h]

/-- The search branch in general.  With a non-empty search text
`applyFilters` issues the one search request.  When the favourites read as a
map (or `favoritesOnly` is off) it resolves to the hits, in hit order and
projected to (id, title, thumbnail), that pass every active post-filter: the
read `favMap[id]` is truthy when `favoritesOnly` is set (an own entry, or a
name inherited from `Object.prototype`), the area of the hit equals the
selected area when an area is set, and the category of the hit equals the
selected category when that is neither empty nor `all`.  When no hit id is an
inherited name and the category is not empty, this is the filter as the claim
words it.  With `favoritesOnly` set, hits present and the favourites reading
as `null`, the run ends in `Search failed.`. -/
theorem applyFilters_search (net : Net) (blob : Blob) (cats : List String) (st : State)
    (hits : List Meal)
    (hs : st.search ≠ "")
    (hn : mealsOrEmpty (net (.search st.search)) = some (hits.map some)) :
    (applyFilters net blob cats st).requests = [.search st.search] ∧
    (∀ favMap : FavMap, (st.favoritesOnly = true → getFavoritesMap blob = some favMap) →
      (applyFilters net blob cats st).resolution
        = .resolved (((hits.filter (fun h =>
            (!st.favoritesOnly || readsTruthy favMap (jsString h.idMeal)) &&
            (st.area == "" || h.strArea == some st.area) &&
            (st.category == "" || st.category == "all"
              || h.strCategory == some st.category))).map summary).map some)) ∧
    (∀ favMap : FavMap, (st.favoritesOnly = true → getFavoritesMap blob = some favMap) →
      st.category ≠ "" →
      (∀ h ∈ hits, inheritedKeys.contains (jsString h.idMeal) = false) →
      (applyFilters net blob cats st).resolution
        = .resolved ((searchFilterByClaim favMap st hits).map some)) ∧
    (∀ favMap : FavMap, getFavoritesMap blob = some favMap → st.favoritesOnly = true →
      (∀ h ∈ hits, readsTruthy favMap (jsString h.idMeal) = false) →
      (applyFilters net blob cats st).resolution = .resolved []) ∧
    (st.favoritesOnly = true → getFavoritesMap blob = none → hits ≠ [] →
      (applyFilters net blob cats st).resolution = .failed "Search failed.") := by
  have hr := resolve_search net blob cats st hs
  obtain ⟨ha1, ha2⟩ := applyFilters_resolution net blob cats st
  have hres : (applyFilters net blob cats st).resolution = resolveSearch net blob st := by
    rw [ha1, hr]
  refine ⟨by rw [ha2, hr], ?_, ?_, ?_, ?_⟩
  · intro favMap hfav
    rw [hres]
    exact resolveSearch_objects net blob st hits favMap hn hfav
  · intro favMap hfav hc hni
    rw [hres, resolveSearch_objects net blob st hits favMap hn hfav]
    unfold searchFilterByClaim
    have hc2 : (st.category == "") = false := by simpa using hc
    congr 3
    apply List.filter_congr
    intro h hh
    rw [readsTruthy_of_not_inherited _ _ (hni h hh), hc2, Bool.false_or]
  · intro favMap hm hfo hnone
    rw [hres, resolveSearch_objects net blob st hits favMap hn (fun _ => hm)]
    have : hits.filter (fun h =>
          (!st.favoritesOnly || readsTruthy favMap (jsString h.idMeal)) &&
          (st.area == "" || h.strArea == some st.area) &&
          (st.category == "" || st.category == "all"
            || h.strCategory == some st.category)) = [] := by
      rw [List.filter_eq_nil_iff]
      intro h hh
      simp [hfo, hnone h hh]
    rw [this]
    rfl
  · intro hfo hnull hne
    rw [hres]
    exact resolveSearch_null_map net blob st hits hn hfo hnull hne

/-- The scenario of the search claim: a search for chicken with
`favoritesOnly` set and a FavoritesMap holding only recipe 99, which is not
among the hits 5 and 6, resolves to the empty list. -/
theorem applyFilters_search_witness :
    (applyFilters netChicken (.object [("99", mkSummary "99" "Other")]) []
        { initialState with search := "chicken", favoritesOnly := true }).resolution
      = .resolved [] :=
  (applyFilters_search netChicken (.object [("99", mkSummary "99" "Other")]) []
      { initialState with search := "chicken", favoritesOnly := true }
      [mkDetail "5" "Chicken pie" "British" "Chicken",
       mkDetail "6" "Chicken curry" "Indian" "Chicken"]
      (by decide) rfl).2.2.2.1 [("99", mkSummary "99" "Other")] rfl rfl (by decide)

/-- C8, the failing input: a search for chicken with `favoritesOnly` set and
a FavoritesMap holding only recipe 99, where the hits are recipe 5 and a
recipe whose id is `constructor`.  Neither hit is in the FavoritesMap, so the
post-filter as the claim words it keeps nothing; the script drops recipe 5
but keeps the other hit, because `favMap["constructor"]` reads the inherited
`Object` function.  With the stored text `null` the same run ends in
`Search failed.`. -/
theorem applyFilters_search_keeps_inherited_name :
    (applyFilters netInherited (.object [("99", mkSummary "99" "Other")]) []
        { initialState with search := "chicken", favoritesOnly := true }).resolution
      = .resolved [some (mkSummary "constructor" "Chicken soup")] ∧
    ([("99", mkSummary "99" "Other")] : FavMap).lookup "constructor" = none ∧
    searchFilterByClaim [("99", mkSummary "99" "Other")]
        { initialState with search := "chicken", favoritesOnly := true }
        [mkDetail "5" "Chicken pie" "British" "Chicken",
         mkDetail "constructor" "Chicken soup" "British" "Chicken"] = [] ∧
    (applyFilters netInherited .jsonNull []
        { initialState with search := "chicken", favoritesOnly := true }).resolution
      = .failed "Search failed." := by
  decide

/-- C9 (amended): with search INACTIVE, `favoritesOnly` set and an empty
FavoritesMap (also when the stored blob is missing, unreadable, empty or not
JSON), `applyFilters` issues no network request, shows the text
`No favorites yet. Click the star on a recipe to save it.`, renders the
pagination for zero items and leaves the state as it is. -/
theorem applyFilters_no_favorites (net : Net) (blob : Blob) (cats : List String) (st : State)
    (hs : st.search = "") (hf : st.favoritesOnly = true)
    (hm : getFavoritesMap blob = some []) :
    applyFilters net blob cats st
      = { requests := [], categories := cats, resolution := .noFavorites, state := st,
          results := .text "No favorites yet. Click the star on a recipe to save it.",
          pager := some (renderPagination st 0), rejected := false } := by
  have hr : resolve net blob cats st
      = { requests := [], categories := cats, resolution := .noFavorites } := by
    unfold resolve
    have h1 : (st.search != "") = false := by simp [hs]
    rw [h1, hf]
    simp only [Bool.false_eq_true, if_false, if_true]
    unfold resolveFavorites
    rw [hm]
    rfl
  unfold applyFilters
  simp only [hr]

/-- C9, witness: nothing stored, favourites-only, no search. -/
theorem applyFilters_no_favorites_witness :
    applyFilters netChicken .missing [] { initialState with favoritesOnly := true }
      = { requests := [], categories := [], resolution := .noFavorites,
          state := { initialState with favoritesOnly := true },
          results := .text "No favorites yet. Click the star on a recipe to save it.",
          pager := some (renderPagination { initialState with favoritesOnly := true } 0),
          rejected := false } :=
  applyFilters_no_favorites netChicken .missing [] { initialState with favoritesOnly := true }
    rfl rfl rfl

/-- C9 as stated fails: with `favoritesOnly` set, an empty FavoritesMap and a
search text, the script sends the search request and ends in the ordinary
`No recipes found.` state. -/
theorem applyFilters_no_favorites_with_search :
    (applyFilters netChicken (.object []) []
        { initialState with search := "chicken", favoritesOnly := true }).requests
      = [.search "chicken"] ∧
    (applyFilters netChicken (.object []) []
        { initialState with search := "chicken", favoritesOnly := true }).resolution
      ≠ .noFavorites ∧
    (applyFilters netChicken (.object []) []
        { initialState with search := "chicken", favoritesOnly := true }).results
      = .text "No recipes found." := by
  decide

theorem fetchCategory_absorbFailures (net : Net) (c : String) :
    fetchCategory (absorbFailures net) c = fetchCategory net c := by
  unfold fetchCategory
  have e : absorbFailures net (.filterByCategory c)
      = (match net (.filterByCategory c) with
          | .failed => .meals []
          | other => other) := rfl
  rw [e]
  cases h : net (.filterByCategory c) <;> rfl

theorem loadCategories_of_ne_nil (net : Net) (cats : List String) (hne : cats ≠ []) :
    loadCategories net cats = some cats := by
  unfold loadCategories
  have : ¬ cats.length = 0 := by
    intro h
    exact hne (List.length_eq_zero.mp h)
  rw [if_neg this]

theorem getAllMeals_of_ne_nil (net : Net) (cats : List String) (hne : cats ≠ []) :
    getAllMeals net cats
      = { categories := cats, requests := cats.map Request.filterByCategory,
          meals := dedupe (cats.map (fetchCategory net)).flatten, failed := false } := by
  unfold getAllMeals
  have : ¬ cats.length = 0 := by
    intro h
    exact hne (List.length_eq_zero.mp h)
  rw [loadCategories_of_ne_nil net cats hne]
  simp [this]

/-- C10: on a non-empty registry `getAllMeals` sends one listing request per
category and never fails as a whole: a failed category request contributes
an empty listing.  Its result is the aggregation obtained when every failed
category request had delivered an empty listing: the listings that did
arrive, flattened in registry order, with unusable entries dropped and each
id kept at its first occurrence only.  So the result has no two entries with
the same id, keeps the order of the flattened arrived listings, holds for
each id the first entry carrying it, and contains the id of every entry with
a non-empty id of every category that succeeded. -/
theorem getAllMeals_absorbs_failures (net : Net) (cats : List String) (hne : cats ≠ []) :
    (getAllMeals net cats).failed = false ∧
    (getAllMeals net cats).requests = cats.map Request.filterByCategory ∧
    (getAllMeals net cats).meals = (getAllMeals (absorbFailures net) cats).meals ∧
    (getAllMeals net cats).meals
      = firstSeen (usable ((cats.map (fun c =>
          match net (.filterByCategory c) with
          | .meals ms => ms
          | _ => [])).flatten)) ∧
    ((getAllMeals net cats).meals.map Meal.idMeal).Nodup ∧
    ((getAllMeals net cats).meals.map some).Sublist
      ((cats.map (fun c =>
          match net (.filterByCategory c) with
          | .meals ms => ms
          | _ => [])).flatten) ∧
    (∀ e ∈ (getAllMeals net cats).meals,
      (usable ((cats.map (fun c =>
          match net (.filterByCategory c) with
          | .meals ms => ms
          | _ => [])).flatten)).find? (fun x => x.idMeal == e.idMeal) = some e) ∧
    (∀ c ∈ cats, ∀ ms : List (Option Meal), net (.filterByCategory c) = .meals ms →
      ∀ e : Meal, some e ∈ ms → truthy e.idMeal = true →
        e.idMeal ∈ (getAllMeals net cats).meals.map Meal.idMeal) := by
  have h := getAllMeals_of_ne_nil net cats hne
  have h2 := getAllMeals_of_ne_nil (absorbFailures net) cats hne
  have hmap : cats.map (fetchCategory (absorbFailures net)) = cats.map (fetchCategory net) := by
    apply List.map_congr_left
    intro c _
    exact fetchCategory_absorbFailures net c
  have hmap2 : cats.map (fetchCategory net) = cats.map (fun c =>
          match net (.filterByCategory c) with
          | .meals ms => ms
          | _ => []) := by
    apply List.map_congr_left
    intro c _
    unfold fetchCategory
    cases hc : net (.filterByCategory c) <;> simp [mealsOrEmpty]
  have hm : (getAllMeals net cats).meals
      = firstSeen (usable ((cats.map (fun c =>
          match net (.filterByCategory c) with
          | .meals ms => ms
          | _ => [])).flatten)) := by
    rw [h]
    simp only
    rw [dedupe_eq_firstSeen, hmap2]
  refine ⟨by rw [h], by rw [h], ?_, hm, ?_, ?_, ?_, ?_⟩
  · rw [h, h2, hmap]
  · rw [hm]
    exact keepUnseen_nodup _ _
  · rw [hm]
    exact ((keepUnseen_sublist _ []).map some).trans (usable_sublist _)
  · intro e he
    rw [hm] at he
    exact keepUnseen_first _ _ e he
  · intro c hc ms hms e he ht
    rw [hm]
    apply keepUnseen_complete _ [] e _ (by simp)
    rw [mem_usable]
    refine ⟨?_, ht⟩
    rw [List.mem_flatten]
    refine ⟨ms, ?_, he⟩
    rw [List.mem_map]
    refine ⟨c, hc, ?_⟩
    simp only [hms]

/-- C10, witness: Beef = [1, 2] and Pork = [2, 4] arrive, Chicken fails; the
result is recipes 1, 2 and 4, recipe 2 in its Beef version. -/
theorem getAllMeals_absorbs_failures_witness :
    (getAllMeals netBeefOnly ["Beef", "Chicken", "Pork"]).meals
      = [mkSummary "1" "Pie", mkSummary "2" "Stew", mkSummary "4" "Ribs"] :=
  (getAllMeals_absorbs_failures netBeefOnly ["Beef", "Chicken", "Pork"]
    (by decide)).2.2.2.1.trans (by decide)

theorem pageAt_eq {α : Type} (f : α → Bool) (st : State) (meals : List α) (k : Nat)
    (h1 : 1 ≤ k) (h2 : k ≤ totalPagesOf meals.length st.pageSize) :
    pageAt f st meals k = (meals.drop ((k - 1) * st.pageSize)).take st.pageSize := by
  unfold pageAt
  rw [paginate_items f { st with page := k } meals h1, paginate_state]
  simp only
  rw [Nat.min_eq_left h2]

theorem le_ceilDiv_mul (n p : Nat) (hp : 0 < p) : n ≤ ceilDiv n p * p := by
  unfold ceilDiv
  have h := Nat.div_add_mod (n + p - 1) p
  have hm := Nat.mod_lt (n + p - 1) hp
  rw [Nat.mul_comm] at h
  omega

theorem ceilDiv_mul_lt (n p : Nat) (hp : 0 < p) : ceilDiv n p * p < n + p := by
  unfold ceilDiv
  have h := Nat.div_mul_le_self (n + p - 1) p
  omega

theorem flatten_windows {α : Type} (l : List α) (p : Nat) :
    ∀ n : Nat, ((List.range n).map (fun i => (l.drop (i * p)).take p)).flatten
      = l.take (n * p) := by
  intro n
  induction n with
  | zero => simp
  | succ n ih =>
    rw [List.range_succ, List.map_append, List.flatten_append, ih]
    have : (n + 1) * p = n * p + p := by ring
    rw [this, List.take_add]
    simp

/-- C11: for a positive page size, the pages the paginator cuts for
page = 1, 2, ..., totalPages partition the list.  There are
`max(1, ceil(N / P))` of them; each has at most `pageSize` items; every page
before the last has exactly `pageSize` items; item `i` of page `k` is the
item at position `(k - 1) * pageSize + i` of the list, so no position lands
on two pages; and the pages concatenated in page order are the list. -/
theorem allPages_partition {α : Type} (f : α → Bool) (st : State) (meals : List α)
    (hP : 0 < st.pageSize) :
    (allPages f st meals).length = max 1 ⌈(meals.length : ℚ) / (st.pageSize : ℚ)⌉₊ ∧
    (∀ k : Nat, 1 ≤ k → k ≤ totalPagesOf meals.length st.pageSize →
      (pageAt f st meals k).length ≤ st.pageSize) ∧
    (∀ k : Nat, 1 ≤ k → k < totalPagesOf meals.length st.pageSize →
      (pageAt f st meals k).length = st.pageSize) ∧
    (∀ k : Nat, 1 ≤ k → k ≤ totalPagesOf meals.length st.pageSize →
      ∀ i : Nat, (pageAt f st meals k)[i]?
        = if i < st.pageSize then meals[(k - 1) * st.pageSize + i]? else none) ∧
    (allPages f st meals).flatten = meals := by
  have hcover : meals.length ≤ totalPagesOf meals.length st.pageSize * st.pageSize := by
    have h1 := le_ceilDiv_mul meals.length st.pageSize hP
    have h2 : ceilDiv meals.length st.pageSize ≤ totalPagesOf meals.length st.pageSize :=
      Nat.le_max_right _ _
    exact Nat.le_trans h1 (Nat.mul_le_mul_right _ h2)
  refine ⟨?_, ?_, ?_, ?_, ?_⟩
  · unfold allPages
    rw [List.length_map, List.length_range, totalPagesOf_eq _ _ hP]
  · intro k h1 h2
    rw [pageAt_eq f st meals k h1 h2, List.length_take]
    exact Nat.min_le_left _ _
  · intro k h1 h2
    rw [pageAt_eq f st meals k h1 (Nat.le_of_lt h2), List.length_take, List.length_drop]
    have hk : k * st.pageSize ≤ meals.length := by
      have h3 : 1 < totalPagesOf meals.length st.pageSize := by omega
      have h4 : totalPagesOf meals.length st.pageSize = ceilDiv meals.length st.pageSize := by
        unfold totalPagesOf at h3 ⊢
        omega
      have h5 := ceilDiv_mul_lt meals.length st.pageSize hP
      rw [← h4] at h5
      have h6 : (k + 1) * st.pageSize ≤ totalPagesOf meals.length st.pageSize * st.pageSize :=
        Nat.mul_le_mul_right _ h2
      have h7 : (k + 1) * st.pageSize = k * st.pageSize + st.pageSize := by ring
      omega
    have hk2 : k * st.pageSize = (k - 1) * st.pageSize + st.pageSize := by
      obtain ⟨j, rfl⟩ : ∃ j, k = j + 1 := ⟨k - 1, by omega⟩
      simp only [Nat.add_sub_cancel]
      ring
    omega
  · intro k h1 h2 i
    rw [pageAt_eq f st meals k h1 h2, List.getElem?_take]
    by_cases h : i < st.pageSize
    · simp [h, List.getElem?_drop]
    · simp [h]
  · unfold allPages
    have hmap : (List.range (totalPagesOf meals.length st.pageSize)).map
          (fun i => pageAt f st meals (i + 1))
        = (List.range (totalPagesOf meals.length st.pageSize)).map
          (fun i => (meals.drop (i * st.pageSize)).take st.pageSize) := by
      apply List.map_congr_left
      intro i hi
      rw [List.mem_range] at hi
      rw [pageAt_eq f st meals (i + 1) (by omega) (by omega)]
      simp
    rw [hmap, flatten_windows]
    exact List.take_of_length_le hcover

/-- C11, witness: ten items with page size 8 are cut into two pages that
concatenate to the ten items. -/
theorem allPages_partition_witness :
    (allPages (fun _ => false) { initialState with pageSize := 8 } (List.range 10)).flatten
      = List.range 10 :=
  (allPages_partition (fun _ => false) { initialState with pageSize := 8 } (List.range 10)
    (by decide)).2.2.2.2

end Food
